import Mathlib

/-!
# rocFFT out-of-place transpose: host-side dispatch

A shallow embedding of `library/src/device/transpose.cpp`:

* `rocfft_transpose_outofplace_template` computes the launch geometry, the
  boundary flag `noCorner`, selects a kernel instantiation and issues the launch;
* `rocfft_internal_transpose_var2` normalises a transform node into the
  arguments of the template and picks the instantiation from the precision.

`size_t` is a natural number below `2 ^ 64`; its arithmetic wraps.  `int` values
are integers.  Device pointers and the stream are opaque handles (numbers).
Console output is kept as a list of printed items, kernel launches as a list of
launch records, in program order.
-/

namespace RocFFT

/-! ## Machine arithmetic on `size_t` -/

/-- Number of values of a 64-bit `size_t`. -/
def SIZE_MOD : Nat := 2 ^ 64

/-- Unsigned wrap-around product `a * b` on `size_t`. -/
def szMul (a b : Nat) : Nat := (a * b) % SIZE_MOD

/-- Unsigned wrap-around sum `a + b` on `size_t`. -/
def szAdd (a b : Nat) : Nat := (a + b) % SIZE_MOD

/-- Unsigned wrap-around difference `a - b` on `size_t`. -/
def szSub (a b : Nat) : Nat := (a % SIZE_MOD + (SIZE_MOD - b % SIZE_MOD)) % SIZE_MOD

/-! ## Data model -/

/-- Element type `T` of an instantiation. -/
inductive ElemType where
  | float2
  | double2
  deriving DecidableEq, Repr

/-- Status codes.  The source file returns `rocfft_status_success` and names
`rocfft_status_invalid_dimensions` in a disabled check; `rocfft_status_failure`
stands for the remaining codes of the library enumeration. -/
inductive rocfft_status where
  | rocfft_status_success
  | rocfft_status_failure
  | rocfft_status_invalid_dimensions
  deriving DecidableEq, Repr

/-- Precision tag of a node. -/
inductive rocfft_precision where
  | rocfft_precision_single
  | rocfft_precision_double
  deriving DecidableEq, Repr

/-- Scheme tag of a node.  Only the two block-transpose tags are tested by the
source; `CS_KERNEL_TRANSPOSE` is the plain transpose and `CS_OTHER` stands for
every other tag of the enumeration. -/
inductive ComputeScheme where
  | CS_KERNEL_TRANSPOSE
  | CS_KERNEL_TRANSPOSE_XY_Z
  | CS_KERNEL_TRANSPOSE_Z_XY
  | CS_OTHER
  deriving DecidableEq, Repr

/-- Launch extents.  Modelled from the spec: the type `dim3` is declared by the
device runtime headers, not in this file; following the LaunchConfig of the
data model it holds the three extents it is constructed from. -/
structure dim3 where
  x : Nat
  y : Nat
  z : Nat
  deriving DecidableEq, Repr

/-- A kernel entry point, identified by its template arguments in source order.
`transpose_kernel2<T, DIM_X, DIM_Y, P4, TWL, DIR, ALL>` and
`transpose_kernel2_scheme<T, DIM_X, DIM_Y, ALL>`. -/
inductive Kernel where
  | transpose_kernel2 (T : ElemType) (DIM_X DIM_Y : Nat) (P4 : Bool)
      (TWL : Int) (DIR : Int) (ALL : Bool)
  | transpose_kernel2_scheme (T : ElemType) (DIM_X DIM_Y : Nat) (ALL : Bool)
  deriving DecidableEq, Repr

/-- The pointer expression `devKernArg + rows * KERN_ARGS_ARRAY_WIDTH`; the
array width is a constant of another header and is kept symbolic. -/
structure KernArgPtr where
  devKernArg : Nat
  rows : Nat
  deriving DecidableEq, Repr

/-- One positional kernel argument. -/
inductive KArg where
  | buf (handle : Nat)
  | size (v : Nat)
  | table (p : KernArgPtr)
  | int (v : Int)
  deriving DecidableEq, Repr

/-- One `hipLaunchKernelGGL` call: entry point, grid, block, dynamic shared
memory, stream and the positional arguments. -/
structure Launch where
  kernel : Kernel
  grid : dim3
  threads : dim3
  sharedMem : Nat
  stream : Nat
  args : List KArg
  deriving DecidableEq, Repr

/-- One item written to standard output. -/
inductive Printed where
  | text (s : String)
  | scheme (v : Int)
  | twl (v : Int)
  | dir (v : Int)
  | noCorner (b : Bool)
  | what
  deriving DecidableEq, Repr

/-- Observable effect of a call of the template: returned status, launches
issued and items printed. -/
structure TemplateResult where
  status : rocfft_status
  launches : List Launch
  output : List Printed
  deriving DecidableEq, Repr

/-! ## The dispatch table (`std::map` with `emplace` and `at`) -/

/-- Key of the table: `std::tuple<int, int, bool>`. -/
abbrev TKey := Int × Int × Bool

/-- The table as an association list without duplicate keys. -/
abbrev TMap := List (TKey × Kernel)

/-- The call `tmap.at(k)`: `none` is the thrown `std::out_of_range`. -/
def TMap.at (t : TMap) (k : TKey) : Option Kernel :=
  match t with
  | [] => none
  | (k1, v) :: rest => if k1 = k then some v else TMap.at rest k

/-- The call `tmap.emplace(k, v)`: inserts only when the key is absent. -/
def TMap.emplace (t : TMap) (k : TKey) (v : Kernel) : TMap :=
  match TMap.at t k with
  | some _ => t
  | none => t ++ [(k, v)]

/-- The sixteen `emplace` calls of the template, in source order. -/
@[irreducible]
def tmap (T : ElemType) (TRANSPOSE_DIM_X TRANSPOSE_DIM_Y : Nat) : TMap :=
  let k2 := Kernel.transpose_kernel2 T TRANSPOSE_DIM_X TRANSPOSE_DIM_Y true
  let t : TMap := []
  -- twl=0:
  let t := t.emplace (0, -1, true) (k2 0 (-1) true)
  let t := t.emplace (0, -1, false) (k2 0 (-1) false)
  let t := t.emplace (0, 1, true) (k2 0 1 true)
  let t := t.emplace (0, 1, false) (k2 0 1 false)
  -- twl=2:
  let t := t.emplace (2, -1, true) (k2 2 (-1) true)
  let t := t.emplace (2, -1, false) (k2 2 (-1) false)
  let t := t.emplace (2, 1, true) (k2 2 1 true)
  let t := t.emplace (2, 1, false) (k2 2 1 false)
  -- twl=3:
  let t := t.emplace (3, -1, true) (k2 3 (-1) true)
  let t := t.emplace (3, -1, false) (k2 3 (-1) false)
  let t := t.emplace (3, 1, true) (k2 3 1 true)
  let t := t.emplace (3, 1, false) (k2 3 1 false)
  -- twl=4:
  let t := t.emplace (4, -1, true) (k2 4 (-1) true)
  let t := t.emplace (4, -1, false) (k2 4 (-1) false)
  let t := t.emplace (4, 1, true) (k2 4 1 true)
  let t := t.emplace (4, 1, false) (k2 4 1 false)
  t

/-! ## `rocfft_transpose_outofplace_template` -/

/-- The extent expression `(n - 1) / TRANSPOSE_DIM_X + 1` on `size_t`. -/
def gridExtent (n TRANSPOSE_DIM_X : Nat) : Nat :=
  szAdd (szSub n 1 / TRANSPOSE_DIM_X) 1

/-- The local `grid`. -/
def gridOf (m n count TRANSPOSE_DIM_X : Nat) : dim3 :=
  ⟨gridExtent n TRANSPOSE_DIM_X, gridExtent m TRANSPOSE_DIM_X, count⟩

/-- The local `threads`. -/
def threadsOf (TRANSPOSE_DIM_X TRANSPOSE_DIM_Y : Nat) : dim3 :=
  ⟨TRANSPOSE_DIM_X, TRANSPOSE_DIM_Y, 1⟩

/-- The local `noCorner`. -/
def noCornerOf (m n TRANSPOSE_DIM_X : Nat) : Bool :=
  (n % TRANSPOSE_DIM_X == 0) && (m % TRANSPOSE_DIM_X == 0)

/-- The template function.  The template arguments come first, then the run-time
parameters in source order. -/
def rocfft_transpose_outofplace_template
    (T : ElemType) (TRANSPOSE_DIM_X TRANSPOSE_DIM_Y : Nat)
    (m n : Nat) (A B twiddles_large : Nat) (count dim : Nat)
    (lengths stride_in stride_out : KernArgPtr)
    (twl dir scheme : Int) (rocfft_stream : Nat) : TemplateResult :=
  let grid := gridOf m n count TRANSPOSE_DIM_X
  let threads := threadsOf TRANSPOSE_DIM_X TRANSPOSE_DIM_Y
  let noCorner := noCornerOf m n TRANSPOSE_DIM_X
  let args : List KArg :=
    [KArg.buf A, KArg.buf B, KArg.buf twiddles_large, KArg.size dim,
     KArg.table lengths, KArg.table stride_in, KArg.table stride_out]
  if scheme = 0 then
    let tparams : TKey := (twl, dir, noCorner)
    match (tmap T TRANSPOSE_DIM_X TRANSPOSE_DIM_Y).at tparams with
    | some k =>
      ⟨rocfft_status.rocfft_status_success,
       [⟨k, grid, threads, 0, rocfft_stream, args⟩], []⟩
    | none =>
      ⟨rocfft_status.rocfft_status_success, [],
       [Printed.text "scheme: ", Printed.scheme scheme,
        Printed.text "twl: ", Printed.twl twl,
        Printed.text "dir: ", Printed.dir dir,
        Printed.text "noCorner: ", Printed.noCorner noCorner,
        Printed.what]⟩
  else
    if noCorner then
      ⟨rocfft_status.rocfft_status_success,
       [⟨Kernel.transpose_kernel2_scheme T TRANSPOSE_DIM_X TRANSPOSE_DIM_Y true,
         grid, threads, 0, rocfft_stream, args ++ [KArg.int scheme]⟩], []⟩
    else
      ⟨rocfft_status.rocfft_status_success,
       [⟨Kernel.transpose_kernel2_scheme T TRANSPOSE_DIM_X TRANSPOSE_DIM_Y false,
         grid, threads, 0, rocfft_stream, args ++ [KArg.int scheme]⟩], []⟩

/-! ## `rocfft_internal_transpose_var2` -/

/-- The fields of the transform node read by the source. -/
structure TreeNode where
  length : List Nat
  scheme : ComputeScheme
  large1D : Nat
  direction : Int
  batch : Nat
  precision : rocfft_precision
  twiddles_large : Nat
  devKernArg : Nat
  deriving DecidableEq, Repr

/-- The fields of `DeviceCallIn` read by the source; `bufIn0` and `bufOut0` are
`bufIn[0]` and `bufOut[0]`. -/
structure DeviceCallIn where
  node : TreeNode
  bufIn0 : Nat
  bufOut0 : Nat
  rocfft_stream : Nat
  deriving DecidableEq, Repr

/-- The read `length[i]`; `none` is an index outside the vector. -/
def readLength (length : List Nat) (i : Nat) : Option Nat := length.get? i

/-- The locals `scheme`, `m`, `n` after the scheme test. -/
def schemeMN (node : TreeNode) : Option (Int × Nat × Nat) := do
  let m ← readLength node.length 1
  let n ← readLength node.length 0
  if node.scheme = ComputeScheme.CS_KERNEL_TRANSPOSE_XY_Z then
    let m1 ← readLength node.length 2
    let a ← readLength node.length 0
    let b ← readLength node.length 1
    pure (1, m1, szMul a b)
  else if node.scheme = ComputeScheme.CS_KERNEL_TRANSPOSE_Z_XY then
    let a ← readLength node.length 1
    let b ← readLength node.length 2
    let n1 ← readLength node.length 0
    pure (2, szMul a b, n1)
  else
    pure (0, m, n)

/-- The ladder assigning `twl`, with what it prints. -/
def twlLadder (large1D : Nat) : Int × List Printed :=
  if large1D > szMul (szMul (szMul 256 256) 256) 256 then
    (0, [Printed.text "large1D twiddle size too large error"])
  else if large1D > szMul (szMul 256 256) 256 then
    (4, [])
  else if large1D > szMul 256 256 then
    (3, [])
  else if large1D > 256 then
    (2, [])
  else
    (0, [])

/-- The loop `for(i = extraDimStart; i < length.size(); i++) count *= length[i]`,
entered at index `i` with the running `count`. -/
def countLoop (length : List Nat) (i count : Nat) : Nat :=
  if h : i < length.length then
    countLoop length (i + 1) (szMul count (length.get ⟨i, h⟩))
  else
    count
termination_by length.length - i

/-- The call of the template prepared by the wrapper: the instantiation and the
run-time arguments. -/
structure TemplateCall where
  T : ElemType
  TRANSPOSE_DIM_X : Nat
  TRANSPOSE_DIM_Y : Nat
  m : Nat
  n : Nat
  A : Nat
  B : Nat
  twiddles_large : Nat
  count : Nat
  dim : Nat
  lengths : KernArgPtr
  stride_in : KernArgPtr
  stride_out : KernArgPtr
  twl : Int
  dir : Int
  scheme : Int
  rocfft_stream : Nat
  deriving DecidableEq, Repr

/-- Runs a prepared call. -/
def TemplateCall.run (c : TemplateCall) : TemplateResult :=
  rocfft_transpose_outofplace_template c.T c.TRANSPOSE_DIM_X c.TRANSPOSE_DIM_Y
    c.m c.n c.A c.B c.twiddles_large c.count c.dim c.lengths c.stride_in c.stride_out
    c.twl c.dir c.scheme c.rocfft_stream

/-- The wrapper up to the call of the template: what it prints and the call it
makes.  `none` is a read outside the length vector. -/
def var2Call (data : DeviceCallIn) : Option (List Printed × TemplateCall) := do
  let (scheme, m, n) ← schemeMN data.node
  let (twl, printed) := twlLadder data.node.large1D
  let dir := data.node.direction
  let count := data.node.batch
  let extraDimStart := if scheme ≠ 0 then 3 else 2
  let rocfft_stream := data.rocfft_stream
  let count := countLoop data.node.length extraDimStart count
  if data.node.precision = rocfft_precision.rocfft_precision_single then
    pure (printed,
      ⟨ElemType.float2, 64, 16, m, n, data.bufIn0, data.bufOut0,
       data.node.twiddles_large, count, data.node.length.length,
       ⟨data.node.devKernArg, 0⟩, ⟨data.node.devKernArg, 1⟩, ⟨data.node.devKernArg, 2⟩,
       twl, dir, scheme, rocfft_stream⟩)
  else
    pure (printed,
      ⟨ElemType.double2, 32, 32, m, n, data.bufIn0, data.bufOut0,
       data.node.twiddles_large, count, data.node.length.length,
       ⟨data.node.devKernArg, 0⟩, ⟨data.node.devKernArg, 1⟩, ⟨data.node.devKernArg, 2⟩,
       twl, dir, scheme, rocfft_stream⟩)

/-- Observable effect of the wrapper: items printed and launches issued (the
function returns `void`; the status of the template is discarded). -/
structure Var2Result where
  output : List Printed
  launches : List Launch
  deriving DecidableEq, Repr

/-- The wrapper `rocfft_internal_transpose_var2`. -/
def rocfft_internal_transpose_var2 (data : DeviceCallIn) : Option Var2Result := do
  let (printed, c) ← var2Call data
  let r := c.run
  pure ⟨printed ++ r.output, r.launches⟩

/-- The scheme is one of the two block-transpose tags. -/
def isBlock (s : ComputeScheme) : Bool :=
  s = ComputeScheme.CS_KERNEL_TRANSPOSE_XY_Z || s = ComputeScheme.CS_KERNEL_TRANSPOSE_Z_XY

/-- The length vector has the entries the wrapper reads for the node scheme:
three for the block schemes, two otherwise. -/
def lengthOK (node : TreeNode) : Prop :=
  (if isBlock node.scheme then 3 else 2) ≤ node.length.length

instance (node : TreeNode) : Decidable (lengthOK node) := by
  unfold lengthOK; infer_instance

/-! ## Projections and sample inputs used in the statements -/

/-- The boundary template argument (the last one) of an entry point. -/
def Kernel.ALL : Kernel → Bool
  | Kernel.transpose_kernel2 _ _ _ _ _ _ b => b
  | Kernel.transpose_kernel2_scheme _ _ _ b => b

/-- The element type, tile width and tile height of an entry point. -/
def Kernel.tile : Kernel → ElemType × Nat × Nat
  | Kernel.transpose_kernel2 T X Y _ _ _ _ => (T, X, Y)
  | Kernel.transpose_kernel2_scheme T X Y _ => (T, X, Y)

/-- A single-precision plain node of size 128 x 128 with `large1D = 70000`. -/
def nodePlain : TreeNode :=
  { length := [128, 128], scheme := ComputeScheme.CS_KERNEL_TRANSPOSE, large1D := 70000,
    direction := 1, batch := 3, precision := rocfft_precision.rocfft_precision_single,
    twiddles_large := 7, devKernArg := 9 }

/-- A call on `nodePlain`. -/
def dataPlain : DeviceCallIn :=
  { node := nodePlain, bufIn0 := 1, bufOut0 := 2, rocfft_stream := 5 }

/-- A single-precision plain 64 x 64 node whose `large1D` is `256^4 + 1`. -/
def nodeTooLarge : TreeNode :=
  { length := [64, 64], scheme := ComputeScheme.CS_KERNEL_TRANSPOSE, large1D := 4294967297,
    direction := 1, batch := 1, precision := rocfft_precision.rocfft_precision_single,
    twiddles_large := 7, devKernArg := 9 }

/-- A call on `nodeTooLarge`. -/
def dataTooLarge : DeviceCallIn :=
  { node := nodeTooLarge, bufIn0 := 1, bufOut0 := 2, rocfft_stream := 5 }

/-- A double-precision `XY_Z` node with five dimensions. -/
def nodeXYZ : TreeNode :=
  { length := [100, 130, 2, 3, 5], scheme := ComputeScheme.CS_KERNEL_TRANSPOSE_XY_Z,
    large1D := 0, direction := -1, batch := 4,
    precision := rocfft_precision.rocfft_precision_double,
    twiddles_large := 7, devKernArg := 9 }

/-- A call on `nodeXYZ`. -/
def dataXYZ : DeviceCallIn :=
  { node := nodeXYZ, bufIn0 := 1, bufOut0 := 2, rocfft_stream := 5 }

/-- A double-precision plain node of size 130 x 100 with `large1D = 70000`. -/
def nodePlainDouble : TreeNode :=
  { length := [130, 100, 6], scheme := ComputeScheme.CS_KERNEL_TRANSPOSE, large1D := 70000,
    direction := -1, batch := 3, precision := rocfft_precision.rocfft_precision_double,
    twiddles_large := 7, devKernArg := 9 }

/-- A call on `nodePlainDouble`. -/
def dataPlainDouble : DeviceCallIn :=
  { node := nodePlainDouble, bufIn0 := 1, bufOut0 := 2, rocfft_stream := 5 }

/-- The entry points stored in the dispatch table of one instantiation: the
variants selectable on the plain scheme. -/
def plainVariants (T : ElemType) (TRANSPOSE_DIM_X TRANSPOSE_DIM_Y : Nat) : List Kernel :=
  (tmap T TRANSPOSE_DIM_X TRANSPOSE_DIM_Y).map Prod.snd

/-- The two entry points named in the `else` branch of one instantiation: the
variants selectable on the block schemes. -/
def blockVariants (T : ElemType) (TRANSPOSE_DIM_X TRANSPOSE_DIM_Y : Nat) : List Kernel :=
  [Kernel.transpose_kernel2_scheme T TRANSPOSE_DIM_X TRANSPOSE_DIM_Y true,
   Kernel.transpose_kernel2_scheme T TRANSPOSE_DIM_X TRANSPOSE_DIM_Y false]

/-- A single-precision plain node whose innermost length is 0. -/
def nodeZero : TreeNode :=
  { length := [0, 5], scheme := ComputeScheme.CS_KERNEL_TRANSPOSE, large1D := 0,
    direction := 1, batch := 1, precision := rocfft_precision.rocfft_precision_single,
    twiddles_large := 7, devKernArg := 9 }

/-- A call on `nodeZero`. -/
def dataZero : DeviceCallIn :=
  { node := nodeZero, bufIn0 := 1, bufOut0 := 2, rocfft_stream := 5 }

/-- The batch loop with every read `length[i]` going through `readLength`:
`none` would be a read outside the vector. -/
def countLoopChecked (length : List Nat) (i count : Nat) : Option Nat :=
  if i < length.length then
    (readLength length i).bind
      (fun v => countLoopChecked length (i + 1) (szMul count v))
  else
    some count
termination_by length.length - i

/-! ## Auxiliary facts: the dispatch table -/

theorem at_nil (k : TKey) : TMap.at [] k = none := rfl

theorem at_cons (k1 k : TKey) (v : Kernel) (rest : TMap) :
    TMap.at ((k1, v) :: rest) k = if k1 = k then some v else TMap.at rest k := rfl

theorem emplace_nil (k : TKey) (v : Kernel) : TMap.emplace [] k v = [(k, v)] := rfl

theorem emplace_cons (k1 k : TKey) (v1 v : Kernel) (rest : TMap) :
    TMap.emplace ((k1, v1) :: rest) k v =
      if k1 = k then (k1, v1) :: rest else (k1, v1) :: TMap.emplace rest k v := by
  unfold TMap.emplace
  rw [at_cons]
  by_cases h : k1 = k
  · simp [h]
  · simp only [h, if_false]
    cases TMap.at rest k <;> simp

/-- The table after the sixteen insertions: no insertion is dropped. -/
theorem tmap_eq (T : ElemType) (X Y : Nat) : tmap T X Y =
    [((0, -1, true), Kernel.transpose_kernel2 T X Y true 0 (-1) true),
     ((0, -1, false), Kernel.transpose_kernel2 T X Y true 0 (-1) false),
     ((0, 1, true), Kernel.transpose_kernel2 T X Y true 0 1 true),
     ((0, 1, false), Kernel.transpose_kernel2 T X Y true 0 1 false),
     ((2, -1, true), Kernel.transpose_kernel2 T X Y true 2 (-1) true),
     ((2, -1, false), Kernel.transpose_kernel2 T X Y true 2 (-1) false),
     ((2, 1, true), Kernel.transpose_kernel2 T X Y true 2 1 true),
     ((2, 1, false), Kernel.transpose_kernel2 T X Y true 2 1 false),
     ((3, -1, true), Kernel.transpose_kernel2 T X Y true 3 (-1) true),
     ((3, -1, false), Kernel.transpose_kernel2 T X Y true 3 (-1) false),
     ((3, 1, true), Kernel.transpose_kernel2 T X Y true 3 1 true),
     ((3, 1, false), Kernel.transpose_kernel2 T X Y true 3 1 false),
     ((4, -1, true), Kernel.transpose_kernel2 T X Y true 4 (-1) true),
     ((4, -1, false), Kernel.transpose_kernel2 T X Y true 4 (-1) false),
     ((4, 1, true), Kernel.transpose_kernel2 T X Y true 4 1 true),
     ((4, 1, false), Kernel.transpose_kernel2 T X Y true 4 1 false)] := by
  simp [tmap, emplace_nil, emplace_cons]

/-- Lookup in the table, for every key. -/
theorem tmap_at (T : ElemType) (X Y : Nat) (twl dir : Int) (nc : Bool) :
    (tmap T X Y).at (twl, dir, nc) =
      if (twl = 0 ∨ twl = 2 ∨ twl = 3 ∨ twl = 4) ∧ (dir = 1 ∨ dir = -1) then
        some (Kernel.transpose_kernel2 T X Y true twl dir nc)
      else none := by
  rw [tmap_eq]
  by_cases h : (twl = 0 ∨ twl = 2 ∨ twl = 3 ∨ twl = 4) ∧ (dir = 1 ∨ dir = -1)
  · rw [if_pos h]
    obtain ⟨ht, hd⟩ := h
    rcases ht with rfl | rfl | rfl | rfl <;> rcases hd with rfl | rfl <;> cases nc <;>
      simp [at_cons, at_nil]
  · rw [if_neg h]
    rcases not_and_or.mp h with h1 | h1
    · simp only [not_or] at h1
      obtain ⟨a, b, c, d⟩ := h1
      simp [at_cons, at_nil, Ne.symm a, Ne.symm b, Ne.symm c, Ne.symm d]
    · simp only [not_or] at h1
      obtain ⟨a, b⟩ := h1
      simp [at_cons, at_nil, Ne.symm a, Ne.symm b]

/-! ## Auxiliary facts: `size_t` arithmetic and the grid -/

theorem szMul_of_lt (a b : Nat) (h : a * b < 2 ^ 64) : szMul a b = a * b := by
  unfold szMul SIZE_MOD
  exact Nat.mod_eq_of_lt h

theorem szSub_one (n : Nat) (h1 : 1 ≤ n) (h2 : n < 2 ^ 64) : szSub n 1 = n - 1 := by
  unfold szSub SIZE_MOD
  norm_num at h2 ⊢
  omega

/-- Without wrap-around the extent expression is `(n - 1) / X + 1`. -/
theorem gridExtent_pos (n X : Nat) (h1 : 1 ≤ n) (h2 : n < 2 ^ 64) :
    gridExtent n X = (n - 1) / X + 1 := by
  unfold gridExtent
  rw [szSub_one n h1 h2]
  have hq : (n - 1) / X ≤ n - 1 := Nat.div_le_self _ _
  unfold szAdd SIZE_MOD
  norm_num at h2 ⊢
  omega

/-- The integer expression `(n - 1) / X + 1` is the ceiling of the quotient. -/
theorem pred_div_add_one_eq_ceil (n X : Nat) (h1 : 1 ≤ n) (hX : 0 < X) :
    (n - 1) / X + 1 = ⌈(n : ℚ) / (X : ℚ)⌉₊ := by
  symm
  rw [Nat.ceil_eq_iff (Nat.add_one_ne_zero _)]
  have hXq : (0 : ℚ) < (X : ℚ) := by exact_mod_cast hX
  have hlo : (n - 1) / X * X ≤ n - 1 := Nat.div_mul_le_self _ _
  have hhi : n - 1 < ((n - 1) / X + 1) * X := by
    rw [Nat.mul_comm]
    exact Nat.lt_mul_div_succ (n - 1) hX
  constructor
  · rw [Nat.add_sub_cancel, lt_div_iff₀ hXq]
    have : (n - 1) / X * X < n := by omega
    exact_mod_cast this
  · rw [div_le_iff₀ hXq]
    have : n ≤ ((n - 1) / X + 1) * X := by omega
    exact_mod_cast this

theorem gridExtent_eq_ceil (n X : Nat) (h1 : 1 ≤ n) (h2 : n < 2 ^ 64) (hX : 0 < X) :
    gridExtent n X = ⌈(n : ℚ) / (X : ℚ)⌉₊ := by
  rw [gridExtent_pos n X h1 h2, pred_div_add_one_eq_ceil n X h1 hX]

theorem noCornerOf_iff (m n X : Nat) :
    noCornerOf m n X = true ↔ n % X = 0 ∧ m % X = 0 := by
  simp [noCornerOf]

/-! ## Auxiliary facts: the wrapper -/

theorem schemeMN_plain (node : TreeNode) (l0 l1 : Nat) (rest : List Nat)
    (hl : node.length = l0 :: l1 :: rest) (hs : isBlock node.scheme = false) :
    schemeMN node = some (0, l1, l0) := by
  have h1 : node.scheme ≠ ComputeScheme.CS_KERNEL_TRANSPOSE_XY_Z := by
    intro h; simp [isBlock, h] at hs
  have h2 : node.scheme ≠ ComputeScheme.CS_KERNEL_TRANSPOSE_Z_XY := by
    intro h; simp [isBlock, h] at hs
  simp [schemeMN, readLength, hl, h1, h2]

theorem schemeMN_xy_z (node : TreeNode) (l0 l1 l2 : Nat) (rest : List Nat)
    (hl : node.length = l0 :: l1 :: l2 :: rest)
    (hs : node.scheme = ComputeScheme.CS_KERNEL_TRANSPOSE_XY_Z) :
    schemeMN node = some (1, l2, szMul l0 l1) := by
  simp [schemeMN, readLength, hl, hs]

theorem schemeMN_z_xy (node : TreeNode) (l0 l1 l2 : Nat) (rest : List Nat)
    (hl : node.length = l0 :: l1 :: l2 :: rest)
    (hs : node.scheme = ComputeScheme.CS_KERNEL_TRANSPOSE_Z_XY) :
    schemeMN node = some (2, szMul l1 l2, l0) := by
  simp [schemeMN, readLength, hl, hs]

/-- With the entries it reads present, the scheme test yields its three locals. -/
theorem schemeMN_of_lengthOK (node : TreeNode) (h : lengthOK node) :
    ∃ s m n, schemeMN node = some (s, m, n) ∧ (s ≠ 0 ↔ isBlock node.scheme = true) := by
  unfold lengthOK at h
  cases hb : isBlock node.scheme
  · rw [hb] at h
    match hl : node.length, h with
    | l0 :: l1 :: rest, _ =>
      exact ⟨0, l1, l0, schemeMN_plain node l0 l1 rest hl hb, by simp⟩
  · rw [hb] at h
    match hl : node.length, h with
    | l0 :: l1 :: l2 :: rest, _ =>
      simp only [isBlock, Bool.or_eq_true, decide_eq_true_eq] at hb
      rcases hb with hs | hs
      · exact ⟨1, l2, szMul l0 l1, schemeMN_xy_z node l0 l1 l2 rest hl hs, by simp⟩
      · exact ⟨2, szMul l1 l2, l0, schemeMN_z_xy node l0 l1 l2 rest hl hs, by simp⟩

/-- The call made by the wrapper, field by field, once the scheme test has
produced `scheme`, `m` and `n`. -/
theorem var2Call_fields (data : DeviceCallIn) (s : Int) (m n : Nat)
    (h : schemeMN data.node = some (s, m, n)) :
    ∃ c, var2Call data = some ((twlLadder data.node.large1D).2, c) ∧
      c.m = m ∧ c.n = n ∧ c.scheme = s ∧
      c.twl = (twlLadder data.node.large1D).1 ∧
      c.dir = data.node.direction ∧
      c.count = countLoop data.node.length (if s ≠ 0 then 3 else 2) data.node.batch ∧
      (c.T, c.TRANSPOSE_DIM_X, c.TRANSPOSE_DIM_Y) =
        (if data.node.precision = rocfft_precision.rocfft_precision_single
          then (ElemType.float2, 64, 16) else (ElemType.double2, 32, 32)) ∧
      c.A = data.bufIn0 ∧ c.B = data.bufOut0 ∧
      c.twiddles_large = data.node.twiddles_large ∧
      c.dim = data.node.length.length ∧
      c.lengths = ⟨data.node.devKernArg, 0⟩ ∧
      c.stride_in = ⟨data.node.devKernArg, 1⟩ ∧
      c.stride_out = ⟨data.node.devKernArg, 2⟩ ∧
      c.rocfft_stream = data.rocfft_stream := by
  unfold var2Call
  rw [h]
  by_cases hp : data.node.precision = rocfft_precision.rocfft_precision_single
  · simp [hp]
  · simp [hp]

/-- The values of the ladder. -/
theorem twlLadder_fst (L : Nat) :
    (twlLadder L).1 =
      if L > 256 ^ 4 then 0 else if L > 256 ^ 3 then 4 else if L > 256 ^ 2 then 3
      else if L > 256 then 2 else 0 := by
  have e4 : szMul (szMul (szMul 256 256) 256) 256 = 256 ^ 4 := by
    norm_num [szMul, SIZE_MOD]
  have e3 : szMul (szMul 256 256) 256 = 256 ^ 3 := by norm_num [szMul, SIZE_MOD]
  have e2 : szMul 256 256 = 256 ^ 2 := by norm_num [szMul, SIZE_MOD]
  unfold twlLadder
  rw [e4, e3, e2]
  split_ifs <;> rfl

/-! ## Auxiliary facts: the batch loop -/

theorem countLoop_eq_foldl (l : List Nat) :
    ∀ (k i c : Nat), l.length - i = k → countLoop l i c = (l.drop i).foldl szMul c := by
  intro k
  induction k with
  | zero =>
    intro i c hk
    have hle : l.length ≤ i := by omega
    rw [countLoop, dif_neg (by omega), List.drop_eq_nil_of_le hle]
    rfl
  | succ k ih =>
    intro i c hk
    have hlt : i < l.length := by omega
    rw [countLoop, dif_pos hlt, ih (i + 1) _ (by omega), List.drop_eq_getElem_cons hlt]
    rfl

/-- The loop entered at index `i` multiplies the entries from `i` on, wrapping. -/
theorem countLoop_drop (l : List Nat) (i c : Nat) :
    countLoop l i c = (l.drop i).foldl szMul c :=
  countLoop_eq_foldl l (l.length - i) i c rfl

theorem foldl_szMul (xs : List Nat) :
    ∀ c : Nat, c < 2 ^ 64 → xs.foldl szMul c = (c * xs.prod) % 2 ^ 64 := by
  induction xs with
  | nil =>
    intro c hc
    simp only [List.foldl_nil, List.prod_nil, Nat.mul_one]
    exact (Nat.mod_eq_of_lt hc).symm
  | cons x xs ih =>
    intro c hc
    have hlt : szMul c x < 2 ^ 64 := by
      unfold szMul SIZE_MOD
      exact Nat.mod_lt _ (by norm_num)
    rw [List.foldl_cons, ih _ hlt, List.prod_cons]
    unfold szMul SIZE_MOD
    rw [Nat.mul_mod, Nat.mod_mod, ← Nat.mul_mod, Nat.mul_assoc]

/-- The plain branch of the template, with the table lookup resolved. -/
theorem template_plain (T : ElemType) (X Y m n A B tw count dim : Nat)
    (lengths sin sout : KernArgPtr) (twl dir : Int) (stream : Nat) :
    rocfft_transpose_outofplace_template T X Y m n A B tw count dim
        lengths sin sout twl dir 0 stream =
      if (twl = 0 ∨ twl = 2 ∨ twl = 3 ∨ twl = 4) ∧ (dir = 1 ∨ dir = -1) then
        ⟨rocfft_status.rocfft_status_success,
         [⟨Kernel.transpose_kernel2 T X Y true twl dir (noCornerOf m n X),
           gridOf m n count X, threadsOf X Y, 0, stream,
           [KArg.buf A, KArg.buf B, KArg.buf tw, KArg.size dim,
            KArg.table lengths, KArg.table sin, KArg.table sout]⟩], []⟩
      else
        ⟨rocfft_status.rocfft_status_success, [],
         [Printed.text "scheme: ", Printed.scheme 0,
          Printed.text "twl: ", Printed.twl twl,
          Printed.text "dir: ", Printed.dir dir,
          Printed.text "noCorner: ", Printed.noCorner (noCornerOf m n X),
          Printed.what]⟩ := by
  have key := tmap_at T X Y twl dir (noCornerOf m n X)
  unfold rocfft_transpose_outofplace_template
  simp only [if_true]
  split_ifs with hk
  · rw [if_pos hk] at key
    rw [key]
  · rw [if_neg hk] at key
    rw [key]

/-- The block branch of the template. -/
theorem template_block (T : ElemType) (X Y m n A B tw count dim : Nat)
    (lengths sin sout : KernArgPtr) (twl dir scheme : Int) (stream : Nat)
    (hs : scheme ≠ 0) :
    rocfft_transpose_outofplace_template T X Y m n A B tw count dim
        lengths sin sout twl dir scheme stream =
      ⟨rocfft_status.rocfft_status_success,
       [⟨Kernel.transpose_kernel2_scheme T X Y (noCornerOf m n X),
         gridOf m n count X, threadsOf X Y, 0, stream,
         [KArg.buf A, KArg.buf B, KArg.buf tw, KArg.size dim,
          KArg.table lengths, KArg.table sin, KArg.table sout, KArg.int scheme]⟩], []⟩ := by
  unfold rocfft_transpose_outofplace_template
  simp only [if_neg hs]
  cases hc : noCornerOf m n X <;> simp

/-- What every launch of the template carries, whichever branch issues it. -/
theorem template_launch (T : ElemType) (X Y m n A B tw count dim : Nat)
    (lengths sin sout : KernArgPtr) (twl dir scheme : Int) (stream : Nat) :
    ∀ l ∈ (rocfft_transpose_outofplace_template T X Y m n A B tw count dim
        lengths sin sout twl dir scheme stream).launches,
      l.grid = gridOf m n count X ∧ l.threads = threadsOf X Y ∧
      l.kernel.ALL = noCornerOf m n X ∧ l.kernel.tile = (T, X, Y) := by
  intro l hl
  by_cases hs : scheme = 0
  · subst hs
    rw [template_plain] at hl
    split_ifs at hl with hk
    · simp only [List.mem_singleton] at hl
      subst hl
      simp [Kernel.ALL, Kernel.tile]
    · simp at hl
  · rw [template_block _ _ _ _ _ _ _ _ _ _ _ _ _ _ _ _ _ hs] at hl
    simp only [List.mem_singleton] at hl
    subst hl
    simp [Kernel.ALL, Kernel.tile]

/-! ## The claims -/

/-- C1: for a node whose length vector has the entries the wrapper reads, the
wrapper reaches the call of the template, and the twiddle stage it passes is 0
when `large1D ≤ 256`, 2 when `256 < large1D ≤ 256^2`, 3 when
`256^2 < large1D ≤ 256^3` and 4 when `256^3 < large1D ≤ 256^4`. -/
theorem C1_twiddle_stage (data : DeviceCallIn) (h : lengthOK data.node) :
    ∃ pr c, var2Call data = some (pr, c) ∧
      (data.node.large1D ≤ 256 → c.twl = 0) ∧
      (256 < data.node.large1D → data.node.large1D ≤ 256 ^ 2 → c.twl = 2) ∧
      (256 ^ 2 < data.node.large1D → data.node.large1D ≤ 256 ^ 3 → c.twl = 3) ∧
      (256 ^ 3 < data.node.large1D → data.node.large1D ≤ 256 ^ 4 → c.twl = 4) := by
  obtain ⟨s, m, n, hmn, _⟩ := schemeMN_of_lengthOK data.node h
  obtain ⟨c, hc, _, _, _, htwl, _⟩ := var2Call_fields data s m n hmn
  refine ⟨_, c, hc, ?_, ?_, ?_, ?_⟩ <;> rw [htwl, twlLadder_fst] <;> intros <;>
    split_ifs <;> first | rfl | omega

/-- C1, at the node `nodePlain` (`large1D = 70000`, stage 3). -/
theorem C1_twiddle_stage_witness :
    lengthOK dataPlain.node ∧
    ∃ pr c, var2Call dataPlain = some (pr, c) ∧
      (dataPlain.node.large1D ≤ 256 → c.twl = 0) ∧
      (256 < dataPlain.node.large1D → dataPlain.node.large1D ≤ 256 ^ 2 → c.twl = 2) ∧
      (256 ^ 2 < dataPlain.node.large1D → dataPlain.node.large1D ≤ 256 ^ 3 → c.twl = 3) ∧
      (256 ^ 3 < dataPlain.node.large1D → dataPlain.node.large1D ≤ 256 ^ 4 → c.twl = 4) :=
  ⟨by decide, C1_twiddle_stage dataPlain (by decide)⟩

/-- C2 (evaluation at the failing input): for the plain single-precision
64 x 64 node with `large1D = 256^4 + 1` the wrapper prints its message, keeps
the twiddle stage 0 and issues the launch of the stage-0 kernel. -/
theorem C2_too_large_still_launches :
    rocfft_internal_transpose_var2 dataTooLarge =
      some ⟨[Printed.text "large1D twiddle size too large error"],
        [⟨Kernel.transpose_kernel2 ElemType.float2 64 16 true 0 1 true,
          ⟨1, 1, 1⟩, ⟨64, 16, 1⟩, 0, 5,
          [KArg.buf 1, KArg.buf 2, KArg.buf 7, KArg.size 2,
           KArg.table ⟨9, 0⟩, KArg.table ⟨9, 1⟩, KArg.table ⟨9, 2⟩]⟩]⟩ := by
  simp [rocfft_internal_transpose_var2, var2Call, dataTooLarge, nodeTooLarge, schemeMN,
    readLength, twlLadder, countLoop_drop, TemplateCall.run, template_plain, gridOf,
    gridExtent, threadsOf, noCornerOf, szMul, szAdd, szSub, SIZE_MOD]

/-- C3: for every `m`, `n` and tile width, `noCorner` is true exactly when the
tile width divides both `m` and `n`; the tile height does not enter, and every
launch of the template uses an entry point whose boundary argument is that
flag. -/
theorem C3_noCorner_iff (T : ElemType) (X Y m n A B tw count dim : Nat)
    (lengths sin sout : KernArgPtr) (twl dir scheme : Int) (stream : Nat) :
    (noCornerOf m n X = true ↔ (X ∣ m ∧ X ∣ n)) ∧
    ∀ l ∈ (rocfft_transpose_outofplace_template T X Y m n A B tw count dim
        lengths sin sout twl dir scheme stream).launches,
      (l.kernel.ALL = true ↔ (X ∣ m ∧ X ∣ n)) := by
  have hiff : noCornerOf m n X = true ↔ (X ∣ m ∧ X ∣ n) := by
    rw [noCornerOf_iff, Nat.dvd_iff_mod_eq_zero, Nat.dvd_iff_mod_eq_zero]
    exact ⟨fun h => ⟨h.2, h.1⟩, fun h => ⟨h.2, h.1⟩⟩
  refine ⟨hiff, ?_⟩
  intro l hl
  obtain ⟨_, _, hall, _⟩ :=
    template_launch T X Y m n A B tw count dim lengths sin sout twl dir scheme stream l hl
  rw [hall]
  exact hiff

/-- C4: for `m ≥ 1`, `n ≥ 1` (values of `size_t`), a positive tile width and
every `count`, the grid is `(⌈n / tileWidth⌉, ⌈m / tileWidth⌉, count)`, the tile
width dividing on both axes, and the block is `(tileWidth, tileHeight, 1)`; every
launch of the template carries them.  At the single-precision tile,
`m = n = 128` gives grid `(2, 2, count)` and block `(64, 16, 1)`; at the
double-precision tile, `m = 100`, `n = 130` gives grid `(5, 4, count)` and block
`(32, 32, 1)`. -/
theorem C4_launch_geometry (T : ElemType) (X Y m n A B tw count dim : Nat)
    (lengths sin sout : KernArgPtr) (twl dir scheme : Int) (stream : Nat)
    (hm : 1 ≤ m) (hm64 : m < 2 ^ 64) (hn : 1 ≤ n) (hn64 : n < 2 ^ 64) (hX : 0 < X) :
    (gridOf m n count X = ⟨⌈(n : ℚ) / (X : ℚ)⌉₊, ⌈(m : ℚ) / (X : ℚ)⌉₊, count⟩ ∧
      threadsOf X Y = ⟨X, Y, 1⟩) ∧
    (∀ l ∈ (rocfft_transpose_outofplace_template T X Y m n A B tw count dim
        lengths sin sout twl dir scheme stream).launches,
      l.grid = ⟨⌈(n : ℚ) / (X : ℚ)⌉₊, ⌈(m : ℚ) / (X : ℚ)⌉₊, count⟩ ∧
      l.threads = ⟨X, Y, 1⟩) ∧
    (gridOf 128 128 count 64 = ⟨2, 2, count⟩ ∧ threadsOf 64 16 = ⟨64, 16, 1⟩) ∧
    (gridOf 100 130 count 32 = ⟨5, 4, count⟩ ∧ threadsOf 32 32 = ⟨32, 32, 1⟩) := by
  have hg : gridOf m n count X = ⟨⌈(n : ℚ) / (X : ℚ)⌉₊, ⌈(m : ℚ) / (X : ℚ)⌉₊, count⟩ := by
    unfold gridOf
    rw [gridExtent_eq_ceil n X hn hn64 hX, gridExtent_eq_ceil m X hm hm64 hX]
  refine ⟨⟨hg, rfl⟩, ?_, ⟨?_, rfl⟩, ⟨?_, rfl⟩⟩
  · intro l hl
    obtain ⟨h1, h2, _, _⟩ :=
      template_launch T X Y m n A B tw count dim lengths sin sout twl dir scheme stream l hl
    rw [h1, h2, hg]
    exact ⟨rfl, rfl⟩
  · unfold gridOf
    rw [gridExtent_pos 128 64 (by norm_num) (by norm_num)]
  · unfold gridOf
    rw [gridExtent_pos 130 32 (by norm_num) (by norm_num),
      gridExtent_pos 100 32 (by norm_num) (by norm_num)]

/-- C4, at the single-precision tile with `m = n = 128`, plain scheme. -/
theorem C4_launch_geometry_witness :
    (1 ≤ 128 ∧ 128 < 2 ^ 64 ∧ 0 < 64) ∧
    ((gridOf 128 128 3 64 =
        ⟨⌈((128 : ℕ) : ℚ) / ((64 : ℕ) : ℚ)⌉₊, ⌈((128 : ℕ) : ℚ) / ((64 : ℕ) : ℚ)⌉₊, 3⟩ ∧
      threadsOf 64 16 = ⟨64, 16, 1⟩) ∧
    (∀ l ∈ (rocfft_transpose_outofplace_template ElemType.float2 64 16 128 128 1 2 7 3 2
        ⟨9, 0⟩ ⟨9, 1⟩ ⟨9, 2⟩ 0 1 0 5).launches,
      l.grid =
        ⟨⌈((128 : ℕ) : ℚ) / ((64 : ℕ) : ℚ)⌉₊, ⌈((128 : ℕ) : ℚ) / ((64 : ℕ) : ℚ)⌉₊, 3⟩ ∧
      l.threads = ⟨64, 16, 1⟩) ∧
    (gridOf 128 128 3 64 = ⟨2, 2, 3⟩ ∧ threadsOf 64 16 = ⟨64, 16, 1⟩) ∧
    (gridOf 100 130 3 32 = ⟨5, 4, 3⟩ ∧ threadsOf 32 32 = ⟨32, 32, 1⟩)) :=
  ⟨⟨by decide, by decide, by decide⟩,
   C4_launch_geometry ElemType.float2 64 16 128 128 1 2 7 3 2 ⟨9, 0⟩ ⟨9, 1⟩ ⟨9, 2⟩ 0 1 0 5
     (by decide) (by decide) (by decide) (by decide) (by decide)⟩

/-- C5: for a node whose length vector has the entries read for its scheme
(two for plain, three for the block schemes) the wrapper reaches the call of the
template and passes `m = length[1]`, `n = length[0]` for the plain scheme,
`m = length[2]`, `n = length[0] * length[1]` for `XY_Z`, and
`m = length[1] * length[2]`, `n = length[0]` for `Z_XY`.  The products are the
`size_t` products; they are the exact products whenever those fit in 64 bits. -/
theorem C5_rows_cols (data : DeviceCallIn) (h : lengthOK data.node) :
    ∃ pr c, var2Call data = some (pr, c) ∧
      (isBlock data.node.scheme = false →
        c.scheme = 0 ∧ some c.m = data.node.length[1]? ∧ some c.n = data.node.length[0]?) ∧
      (data.node.scheme = ComputeScheme.CS_KERNEL_TRANSPOSE_XY_Z →
        ∃ l0 l1, data.node.length[0]? = some l0 ∧ data.node.length[1]? = some l1 ∧
          c.scheme = 1 ∧ some c.m = data.node.length[2]? ∧
          c.n = szMul l0 l1 ∧ (l0 * l1 < 2 ^ 64 → c.n = l0 * l1)) ∧
      (data.node.scheme = ComputeScheme.CS_KERNEL_TRANSPOSE_Z_XY →
        ∃ l1 l2, data.node.length[1]? = some l1 ∧ data.node.length[2]? = some l2 ∧
          c.scheme = 2 ∧ c.m = szMul l1 l2 ∧ (l1 * l2 < 2 ^ 64 → c.m = l1 * l2) ∧
          some c.n = data.node.length[0]?) := by
  unfold lengthOK at h
  cases hb : isBlock data.node.scheme
  · rw [hb] at h
    match hl : data.node.length, h with
    | l0 :: l1 :: rest, _ =>
      obtain ⟨c, hc, hm, hn, hs, _⟩ :=
        var2Call_fields data 0 l1 l0 (schemeMN_plain data.node l0 l1 rest hl hb)
      refine ⟨_, c, hc, ?_, ?_, ?_⟩
      · intro _
        simp [hm, hn, hs]
      · intro hx
        simp [isBlock, hx] at hb
      · intro hz
        simp [isBlock, hz] at hb
  · rw [hb] at h
    match hl : data.node.length, h with
    | l0 :: l1 :: l2 :: rest, _ =>
      simp only [isBlock, Bool.or_eq_true, decide_eq_true_eq] at hb
      rcases hb with hx | hz
      · obtain ⟨c, hc, hm, hn, hs, _⟩ :=
          var2Call_fields data 1 l2 (szMul l0 l1) (schemeMN_xy_z data.node l0 l1 l2 rest hl hx)
        refine ⟨_, c, hc, ?_, ?_, ?_⟩
        · intro hf
          simp [isBlock, hx] at hf
        · intro _
          exact ⟨l0, l1, by simp, by simp, hs, by simp [hm], hn,
            fun hlt => by rw [hn, szMul_of_lt _ _ hlt]⟩
        · intro hz
          rw [hx] at hz
          cases hz
      · obtain ⟨c, hc, hm, hn, hs, _⟩ :=
          var2Call_fields data 2 (szMul l1 l2) l0 (schemeMN_z_xy data.node l0 l1 l2 rest hl hz)
        refine ⟨_, c, hc, ?_, ?_, ?_⟩
        · intro hf
          simp [isBlock, hz] at hf
        · intro hx
          rw [hz] at hx
          cases hx
        · intro _
          exact ⟨l1, l2, by simp, by simp, hs, hm,
            fun hlt => by rw [hm, szMul_of_lt _ _ hlt], by simp [hn]⟩

/-- C5, at the five-dimensional `XY_Z` node `nodeXYZ`. -/
theorem C5_rows_cols_witness :
    lengthOK dataXYZ.node ∧
    ∃ pr c, var2Call dataXYZ = some (pr, c) ∧
      (isBlock dataXYZ.node.scheme = false →
        c.scheme = 0 ∧ some c.m = dataXYZ.node.length[1]? ∧
          some c.n = dataXYZ.node.length[0]?) ∧
      (dataXYZ.node.scheme = ComputeScheme.CS_KERNEL_TRANSPOSE_XY_Z →
        ∃ l0 l1, dataXYZ.node.length[0]? = some l0 ∧ dataXYZ.node.length[1]? = some l1 ∧
          c.scheme = 1 ∧ some c.m = dataXYZ.node.length[2]? ∧
          c.n = szMul l0 l1 ∧ (l0 * l1 < 2 ^ 64 → c.n = l0 * l1)) ∧
      (dataXYZ.node.scheme = ComputeScheme.CS_KERNEL_TRANSPOSE_Z_XY →
        ∃ l1 l2, dataXYZ.node.length[1]? = some l1 ∧ dataXYZ.node.length[2]? = some l2 ∧
          c.scheme = 2 ∧ c.m = szMul l1 l2 ∧ (l1 * l2 < 2 ^ 64 → c.m = l1 * l2) ∧
          some c.n = dataXYZ.node.length[0]?) :=
  ⟨by decide, C5_rows_cols dataXYZ (by decide)⟩

/-- C6: the count passed to the template is the batch multiplied, in `size_t`
arithmetic, by the entries of the length vector from the start index (2 for
plain, 3 for the block schemes) to its end; it is the exact product whenever
that fits in 64 bits, and the batch alone when no entry lies at or beyond the
start index.  Plain with `[L0, L1, L2, L3]` gives `B * L2 * L3`; a block scheme
with `[L0, L1, L2, L3, L4]` gives `B * L3 * L4`. -/
theorem C6_count (data : DeviceCallIn) (h : lengthOK data.node)
    (hb : data.node.batch < 2 ^ 64) :
    ∃ pr c, var2Call data = some (pr, c) ∧
      c.count = (data.node.batch *
        (data.node.length.drop (if isBlock data.node.scheme then 3 else 2)).prod) % 2 ^ 64 ∧
      (data.node.batch *
          (data.node.length.drop (if isBlock data.node.scheme then 3 else 2)).prod < 2 ^ 64 →
        c.count = data.node.batch *
          (data.node.length.drop (if isBlock data.node.scheme then 3 else 2)).prod) ∧
      (data.node.length.length ≤ (if isBlock data.node.scheme then 3 else 2) →
        c.count = data.node.batch) ∧
      (∀ L0 L1 L2 L3, isBlock data.node.scheme = false →
        data.node.length = [L0, L1, L2, L3] →
        c.count = (data.node.batch * L2 * L3) % 2 ^ 64) ∧
      (∀ L0 L1 L2 L3 L4, isBlock data.node.scheme = true →
        data.node.length = [L0, L1, L2, L3, L4] →
        c.count = (data.node.batch * L3 * L4) % 2 ^ 64) := by
  obtain ⟨s, m, n, hmn, hs⟩ := schemeMN_of_lengthOK data.node h
  obtain ⟨c, hc, _, _, _, _, _, hcount, _⟩ := var2Call_fields data s m n hmn
  have hstart : (if s ≠ 0 then 3 else 2) = (if isBlock data.node.scheme then 3 else 2) := by
    by_cases h0 : s ≠ 0
    · rw [if_pos h0, if_pos (hs.mp h0)]
    · have hnb : ¬ (isBlock data.node.scheme = true) := fun hh => h0 (hs.mpr hh)
      rw [if_neg h0, if_neg hnb]
  rw [hstart, countLoop_drop, foldl_szMul _ _ hb] at hcount
  refine ⟨_, c, hc, hcount, ?_, ?_, ?_, ?_⟩
  · intro hlt
    rw [hcount, Nat.mod_eq_of_lt hlt]
  · intro hle
    rw [hcount, List.drop_eq_nil_of_le hle, List.prod_nil, Nat.mul_one, Nat.mod_eq_of_lt hb]
  · intro L0 L1 L2 L3 hp hl
    rw [hcount, hp, hl]
    simp [Nat.mul_assoc]
  · intro L0 L1 L2 L3 L4 hp hl
    rw [hcount, hp, hl]
    simp [Nat.mul_assoc]

/-- C6, at the five-dimensional `XY_Z` node `nodeXYZ` (batch 4, count 4 * 3 * 5). -/
theorem C6_count_witness :
    (lengthOK dataXYZ.node ∧ dataXYZ.node.batch < 2 ^ 64) ∧
    ∃ pr c, var2Call dataXYZ = some (pr, c) ∧
      c.count = (dataXYZ.node.batch *
        (dataXYZ.node.length.drop
          (if isBlock dataXYZ.node.scheme then 3 else 2)).prod) % 2 ^ 64 ∧
      (dataXYZ.node.batch *
          (dataXYZ.node.length.drop
            (if isBlock dataXYZ.node.scheme then 3 else 2)).prod < 2 ^ 64 →
        c.count = dataXYZ.node.batch *
          (dataXYZ.node.length.drop (if isBlock dataXYZ.node.scheme then 3 else 2)).prod) ∧
      (dataXYZ.node.length.length ≤ (if isBlock dataXYZ.node.scheme then 3 else 2) →
        c.count = dataXYZ.node.batch) ∧
      (∀ L0 L1 L2 L3, isBlock dataXYZ.node.scheme = false →
        dataXYZ.node.length = [L0, L1, L2, L3] →
        c.count = (dataXYZ.node.batch * L2 * L3) % 2 ^ 64) ∧
      (∀ L0 L1 L2 L3 L4, isBlock dataXYZ.node.scheme = true →
        dataXYZ.node.length = [L0, L1, L2, L3, L4] →
        c.count = (dataXYZ.node.batch * L3 * L4) % 2 ^ 64) :=
  ⟨⟨by decide, by decide⟩, C6_count dataXYZ (by decide) (by decide)⟩

/-- C7: on the plain scheme, every key `(twl, dir, noCorner)` with `twl` in
`{0, 2, 3, 4}` and `dir` in `{+1, -1}` is in the table and is mapped to the
`transpose_kernel2` instantiation with exactly these twiddle-stage, direction
and boundary arguments; the template launches exactly that entry point.  So
`(0, +1, true)` selects the no-boundary stage-0 forward variant and
`(3, -1, false)` the boundary stage-3 inverse variant. -/
theorem C7_table_lookup (T : ElemType) (X Y m n A B tw count dim : Nat)
    (lengths sin sout : KernArgPtr) (twl dir : Int) (noCorner : Bool) (stream : Nat)
    (ht : twl = 0 ∨ twl = 2 ∨ twl = 3 ∨ twl = 4) (hd : dir = 1 ∨ dir = -1) :
    (tmap T X Y).at (twl, dir, noCorner) =
        some (Kernel.transpose_kernel2 T X Y true twl dir noCorner) ∧
    ((rocfft_transpose_outofplace_template T X Y m n A B tw count dim
        lengths sin sout twl dir 0 stream).launches.map (fun l => l.kernel) =
      [Kernel.transpose_kernel2 T X Y true twl dir (noCornerOf m n X)]) ∧
    (tmap T X Y).at (0, 1, true) = some (Kernel.transpose_kernel2 T X Y true 0 1 true) ∧
    (tmap T X Y).at (3, -1, false) =
        some (Kernel.transpose_kernel2 T X Y true 3 (-1) false) := by
  refine ⟨?_, ?_, ?_, ?_⟩
  · rw [tmap_at, if_pos ⟨ht, hd⟩]
  · rw [template_plain, if_pos ⟨ht, hd⟩]
    rfl
  · rw [tmap_at, if_pos (by decide)]
  · rw [tmap_at, if_pos (by decide)]

/-- C7, at the key `(2, -1, false)` of the single-precision instantiation. -/
theorem C7_table_lookup_witness :
    (((2 : Int) = 0 ∨ (2 : Int) = 2 ∨ (2 : Int) = 3 ∨ (2 : Int) = 4) ∧
      ((-1 : Int) = 1 ∨ (-1 : Int) = -1)) ∧
    ((tmap ElemType.float2 64 16).at (2, -1, false) =
        some (Kernel.transpose_kernel2 ElemType.float2 64 16 true 2 (-1) false) ∧
    ((rocfft_transpose_outofplace_template ElemType.float2 64 16 100 128 1 2 7 3 2
        ⟨9, 0⟩ ⟨9, 1⟩ ⟨9, 2⟩ 2 (-1) 0 5).launches.map (fun l => l.kernel) =
      [Kernel.transpose_kernel2 ElemType.float2 64 16 true 2 (-1) (noCornerOf 100 128 64)]) ∧
    (tmap ElemType.float2 64 16).at (0, 1, true) =
        some (Kernel.transpose_kernel2 ElemType.float2 64 16 true 0 1 true) ∧
    (tmap ElemType.float2 64 16).at (3, -1, false) =
        some (Kernel.transpose_kernel2 ElemType.float2 64 16 true 3 (-1) false)) :=
  ⟨⟨by decide, by decide⟩,
   C7_table_lookup ElemType.float2 64 16 100 128 1 2 7 3 2 ⟨9, 0⟩ ⟨9, 1⟩ ⟨9, 2⟩ 2 (-1)
     false 5 (by decide) (by decide)⟩

/-- C8: the wrapper fixes the element type, tile width and tile height together
from the precision alone: single precision calls the `(float2, 64, 16)`
instantiation, double precision the `(double2, 32, 32)` one; the pair of tile
sizes is always one of `(64, 16)` and `(32, 32)`, and every launch of the call
has that block and an entry point of that instantiation. -/
theorem C8_tile_from_precision (data : DeviceCallIn) (h : lengthOK data.node) :
    ∃ pr c, var2Call data = some (pr, c) ∧
      (data.node.precision = rocfft_precision.rocfft_precision_single →
        (c.T, c.TRANSPOSE_DIM_X, c.TRANSPOSE_DIM_Y) = (ElemType.float2, 64, 16)) ∧
      (data.node.precision = rocfft_precision.rocfft_precision_double →
        (c.T, c.TRANSPOSE_DIM_X, c.TRANSPOSE_DIM_Y) = (ElemType.double2, 32, 32)) ∧
      ((c.TRANSPOSE_DIM_X, c.TRANSPOSE_DIM_Y) = (64, 16) ∨
        (c.TRANSPOSE_DIM_X, c.TRANSPOSE_DIM_Y) = (32, 32)) ∧
      ∀ l ∈ c.run.launches,
        l.threads = ⟨c.TRANSPOSE_DIM_X, c.TRANSPOSE_DIM_Y, 1⟩ ∧
        l.kernel.tile = (c.T, c.TRANSPOSE_DIM_X, c.TRANSPOSE_DIM_Y) := by
  obtain ⟨s, m, n, hmn, _⟩ := schemeMN_of_lengthOK data.node h
  obtain ⟨c, hc, _, _, _, _, _, _, htile, _⟩ := var2Call_fields data s m n hmn
  refine ⟨_, c, hc, ?_, ?_, ?_, ?_⟩
  · intro hp
    rw [htile, if_pos hp]
  · intro hp
    rw [htile, if_neg (by rw [hp]; decide)]
  · by_cases hp : data.node.precision = rocfft_precision.rocfft_precision_single
    · rw [if_pos hp] at htile
      left
      simp only [Prod.mk.injEq] at htile ⊢
      exact ⟨htile.2.1, htile.2.2⟩
    · rw [if_neg hp] at htile
      right
      simp only [Prod.mk.injEq] at htile ⊢
      exact ⟨htile.2.1, htile.2.2⟩
  · intro l hl
    obtain ⟨_, h2, _, h4⟩ := template_launch _ _ _ _ _ _ _ _ _ _ _ _ _ _ _ _ _ l hl
    exact ⟨h2, h4⟩

/-- C8, at the double-precision node `nodePlainDouble`. -/
theorem C8_tile_from_precision_witness :
    lengthOK dataPlainDouble.node ∧
    ∃ pr c, var2Call dataPlainDouble = some (pr, c) ∧
      (dataPlainDouble.node.precision = rocfft_precision.rocfft_precision_single →
        (c.T, c.TRANSPOSE_DIM_X, c.TRANSPOSE_DIM_Y) = (ElemType.float2, 64, 16)) ∧
      (dataPlainDouble.node.precision = rocfft_precision.rocfft_precision_double →
        (c.T, c.TRANSPOSE_DIM_X, c.TRANSPOSE_DIM_Y) = (ElemType.double2, 32, 32)) ∧
      ((c.TRANSPOSE_DIM_X, c.TRANSPOSE_DIM_Y) = (64, 16) ∨
        (c.TRANSPOSE_DIM_X, c.TRANSPOSE_DIM_Y) = (32, 32)) ∧
      ∀ l ∈ c.run.launches,
        l.threads = ⟨c.TRANSPOSE_DIM_X, c.TRANSPOSE_DIM_Y, 1⟩ ∧
        l.kernel.tile = (c.T, c.TRANSPOSE_DIM_X, c.TRANSPOSE_DIM_Y) :=
  ⟨by decide, C8_tile_from_precision dataPlainDouble (by decide)⟩

/-- C9: for every `large1D`, values above `256^4` included, the twiddle stage
the wrapper passes is one of 0, 2, 3, 4 and never 1; hence for every plain node
whose direction is `+1` or `-1` the table lookup of the template succeeds for
every `m` and `n`, and the call made by the wrapper issues exactly one launch
and prints nothing (the missing-key branch is not taken). -/
theorem C9_stage_never_one (data : DeviceCallIn) (h : lengthOK data.node) :
    ∃ pr c, var2Call data = some (pr, c) ∧
      (c.twl = 0 ∨ c.twl = 2 ∨ c.twl = 3 ∨ c.twl = 4) ∧ c.twl ≠ 1 ∧
      (isBlock data.node.scheme = false →
        (data.node.direction = 1 ∨ data.node.direction = -1) →
        c.scheme = 0 ∧
        (∀ m n : Nat, ∃ k,
          (tmap c.T c.TRANSPOSE_DIM_X c.TRANSPOSE_DIM_Y).at
            (c.twl, c.dir, noCornerOf m n c.TRANSPOSE_DIM_X) = some k) ∧
        ∃ l, c.run.launches = [l] ∧ c.run.output = []) := by
  obtain ⟨s, m, n, hmn, hs⟩ := schemeMN_of_lengthOK data.node h
  obtain ⟨c, hc, _, _, hsch, htwl, hdir, _⟩ := var2Call_fields data s m n hmn
  have hstage : c.twl = 0 ∨ c.twl = 2 ∨ c.twl = 3 ∨ c.twl = 4 := by
    rw [htwl, twlLadder_fst]
    split_ifs <;> simp
  refine ⟨_, c, hc, hstage, ?_, ?_⟩
  · rcases hstage with e | e | e | e <;> rw [e] <;> decide
  · intro hp hd
    have hs0 : c.scheme = 0 := by
      rw [hsch]
      by_contra hne
      rw [hs.mp hne] at hp
      cases hp
    have hd2 : c.dir = 1 ∨ c.dir = -1 := by
      rw [hdir]
      exact hd
    refine ⟨hs0, ?_, ?_⟩
    · intro m1 n1
      exact ⟨_, by rw [tmap_at, if_pos ⟨hstage, hd2⟩]⟩
    · unfold TemplateCall.run
      rw [hs0, template_plain, if_pos ⟨hstage, hd2⟩]
      exact ⟨_, rfl, rfl⟩

/-- C9, at the plain node whose `large1D` is `256^4 + 1`. -/
theorem C9_stage_never_one_witness :
    lengthOK dataTooLarge.node ∧
    ∃ pr c, var2Call dataTooLarge = some (pr, c) ∧
      (c.twl = 0 ∨ c.twl = 2 ∨ c.twl = 3 ∨ c.twl = 4) ∧ c.twl ≠ 1 ∧
      (isBlock dataTooLarge.node.scheme = false →
        (dataTooLarge.node.direction = 1 ∨ dataTooLarge.node.direction = -1) →
        c.scheme = 0 ∧
        (∀ m n : Nat, ∃ k,
          (tmap c.T c.TRANSPOSE_DIM_X c.TRANSPOSE_DIM_Y).at
            (c.twl, c.dir, noCornerOf m n c.TRANSPOSE_DIM_X) = some k) ∧
        ∃ l, c.run.launches = [l] ∧ c.run.output = []) :=
  ⟨by decide, C9_stage_never_one dataTooLarge (by decide)⟩

/-- C10 (counterexample): on the plain scheme with `twl = 1`, a key absent from
the table, the template issues no launch, prints its diagnostics and returns
`rocfft_status_success`. -/
theorem C10_missing_key_returns_success :
    (tmap ElemType.float2 64 16).at (1, 1, noCornerOf 128 128 64) = none ∧
    rocfft_transpose_outofplace_template ElemType.float2 64 16 128 128 1 2 7 3 2
        ⟨9, 0⟩ ⟨9, 1⟩ ⟨9, 2⟩ 1 1 0 5 =
      ⟨rocfft_status.rocfft_status_success, [],
       [Printed.text "scheme: ", Printed.scheme 0,
        Printed.text "twl: ", Printed.twl 1,
        Printed.text "dir: ", Printed.dir 1,
        Printed.text "noCorner: ", Printed.noCorner true,
        Printed.what]⟩ := by
  constructor
  · rw [tmap_at, if_neg (by decide)]
  · rw [template_plain, if_neg (by decide)]
    rfl

/-- C10 (amended): on the plain scheme, for every key absent from the table the
template issues no launch, prints the diagnostics (scheme, twl, dir, noCorner
and the text of the exception) and returns `rocfft_status_success`. -/
theorem C10_missing_key_logged (T : ElemType) (X Y m n A B tw count dim : Nat)
    (lengths sin sout : KernArgPtr) (twl dir : Int) (stream : Nat)
    (hmiss : (tmap T X Y).at (twl, dir, noCornerOf m n X) = none) :
    rocfft_transpose_outofplace_template T X Y m n A B tw count dim
        lengths sin sout twl dir 0 stream =
      ⟨rocfft_status.rocfft_status_success, [],
       [Printed.text "scheme: ", Printed.scheme 0,
        Printed.text "twl: ", Printed.twl twl,
        Printed.text "dir: ", Printed.dir dir,
        Printed.text "noCorner: ", Printed.noCorner (noCornerOf m n X),
        Printed.what]⟩ := by
  rw [template_plain]
  rw [tmap_at] at hmiss
  split_ifs at hmiss with hk
  rw [if_neg hk]

/-- C10 (amended), at the key with direction 0 of the double-precision
instantiation. -/
theorem C10_missing_key_logged_witness :
    (tmap ElemType.double2 32 32).at (3, 0, noCornerOf 100 130 32) = none ∧
    rocfft_transpose_outofplace_template ElemType.double2 32 32 100 130 1 2 7 3 2
        ⟨9, 0⟩ ⟨9, 1⟩ ⟨9, 2⟩ 3 0 0 5 =
      ⟨rocfft_status.rocfft_status_success, [],
       [Printed.text "scheme: ", Printed.scheme 0,
        Printed.text "twl: ", Printed.twl 3,
        Printed.text "dir: ", Printed.dir 0,
        Printed.text "noCorner: ", Printed.noCorner (noCornerOf 100 130 32),
        Printed.what]⟩ :=
  ⟨by simp [tmap_at],
   C10_missing_key_logged ElemType.double2 32 32 100 130 1 2 7 3 2 ⟨9, 0⟩ ⟨9, 1⟩ ⟨9, 2⟩ 3 0 5
     (by simp [tmap_at])⟩

/-! ## Auxiliary facts for the block schemes -/

/-- The value of the local `scheme` passed by the wrapper. -/
theorem var2Call_scheme (data : DeviceCallIn) (h : lengthOK data.node) :
    ∃ pr c, var2Call data = some (pr, c) ∧
      (isBlock data.node.scheme = false → c.scheme = 0) ∧
      (data.node.scheme = ComputeScheme.CS_KERNEL_TRANSPOSE_XY_Z → c.scheme = 1) ∧
      (data.node.scheme = ComputeScheme.CS_KERNEL_TRANSPOSE_Z_XY → c.scheme = 2) := by
  unfold lengthOK at h
  cases hb : isBlock data.node.scheme
  · rw [hb] at h
    match hl : data.node.length, h with
    | l0 :: l1 :: rest, _ =>
      obtain ⟨c, hc, _, _, hs, _⟩ :=
        var2Call_fields data 0 l1 l0 (schemeMN_plain data.node l0 l1 rest hl hb)
      refine ⟨_, c, hc, fun _ => hs, ?_, ?_⟩
      · intro hx
        simp [isBlock, hx] at hb
      · intro hz
        simp [isBlock, hz] at hb
  · rw [hb] at h
    match hl : data.node.length, h with
    | l0 :: l1 :: l2 :: rest, _ =>
      simp only [isBlock, Bool.or_eq_true, decide_eq_true_eq] at hb
      rcases hb with hx | hz
      · obtain ⟨c, hc, _, _, hs, _⟩ :=
          var2Call_fields data 1 l2 (szMul l0 l1) (schemeMN_xy_z data.node l0 l1 l2 rest hl hx)
        refine ⟨_, c, hc, (fun hf => by cases hf), fun _ => hs, ?_⟩
        intro hz
        rw [hx] at hz
        cases hz
      · obtain ⟨c, hc, _, _, hs, _⟩ :=
          var2Call_fields data 2 (szMul l1 l2) l0 (schemeMN_z_xy data.node l0 l1 l2 rest hl hz)
        refine ⟨_, c, hc, (fun hf => by cases hf), ?_, fun _ => hs⟩
        intro hx
        rw [hz] at hx
        cases hx

/-- C11: on the block schemes (`scheme ≠ 0`; the wrapper passes 1 for `XY_Z` and
2 for `Z_XY`) the entry point is `transpose_kernel2_scheme` with boundary
argument `noCorner` and nothing else: two calls that differ only in `twl` and
`dir` have the same effect, the single launch uses
`transpose_kernel2_scheme<T, X, Y, true>` when `noCorner` holds and
`<T, X, Y, false>` otherwise, and `scheme` is the last kernel argument. -/
theorem C11_block_entry_point (T : ElemType) (X Y m n A B tw count dim : Nat)
    (lengths sin sout : KernArgPtr) (twl dir twl2 dir2 scheme : Int) (stream : Nat)
    (hs : scheme ≠ 0) :
    rocfft_transpose_outofplace_template T X Y m n A B tw count dim
        lengths sin sout twl dir scheme stream =
      rocfft_transpose_outofplace_template T X Y m n A B tw count dim
        lengths sin sout twl2 dir2 scheme stream ∧
    (rocfft_transpose_outofplace_template T X Y m n A B tw count dim
        lengths sin sout twl dir scheme stream).launches =
      [⟨Kernel.transpose_kernel2_scheme T X Y (noCornerOf m n X),
        gridOf m n count X, threadsOf X Y, 0, stream,
        [KArg.buf A, KArg.buf B, KArg.buf tw, KArg.size dim,
         KArg.table lengths, KArg.table sin, KArg.table sout, KArg.int scheme]⟩] ∧
    (∀ l ∈ (rocfft_transpose_outofplace_template T X Y m n A B tw count dim
        lengths sin sout twl dir scheme stream).launches,
      (noCornerOf m n X = true → l.kernel = Kernel.transpose_kernel2_scheme T X Y true) ∧
      (noCornerOf m n X = false → l.kernel = Kernel.transpose_kernel2_scheme T X Y false) ∧
      l.args.getLast? = some (KArg.int scheme)) ∧
    (∀ data : DeviceCallIn, lengthOK data.node → isBlock data.node.scheme = true →
      ∃ pr c, var2Call data = some (pr, c) ∧ c.scheme ≠ 0 ∧
        (data.node.scheme = ComputeScheme.CS_KERNEL_TRANSPOSE_XY_Z → c.scheme = 1) ∧
        (data.node.scheme = ComputeScheme.CS_KERNEL_TRANSPOSE_Z_XY → c.scheme = 2)) := by
  refine ⟨?_, ?_, ?_, ?_⟩
  · rw [template_block _ _ _ _ _ _ _ _ _ _ _ _ _ twl dir scheme _ hs,
      template_block _ _ _ _ _ _ _ _ _ _ _ _ _ twl2 dir2 scheme _ hs]
  · rw [template_block _ _ _ _ _ _ _ _ _ _ _ _ _ _ _ _ _ hs]
  · intro l hl
    rw [template_block _ _ _ _ _ _ _ _ _ _ _ _ _ _ _ _ _ hs] at hl
    simp only [List.mem_singleton] at hl
    subst hl
    refine ⟨?_, ?_, by simp⟩
    · intro hc
      simp [hc]
    · intro hc
      simp [hc]
  · intro data h hb
    obtain ⟨pr, c, hc, _, hx, hz⟩ := var2Call_scheme data h
    refine ⟨pr, c, hc, ?_, hx, hz⟩
    simp only [isBlock, Bool.or_eq_true, decide_eq_true_eq] at hb
    rcases hb with e | e
    · rw [hx e]; decide
    · rw [hz e]; decide

/-- C11, at the double-precision tile with `m = 100`, `n = 130`, scheme 1. -/
theorem C11_block_entry_point_witness :
    (1 : Int) ≠ 0 ∧
    (rocfft_transpose_outofplace_template ElemType.double2 32 32 100 130 1 2 7 3 3
        ⟨9, 0⟩ ⟨9, 1⟩ ⟨9, 2⟩ 0 1 1 5 =
      rocfft_transpose_outofplace_template ElemType.double2 32 32 100 130 1 2 7 3 3
        ⟨9, 0⟩ ⟨9, 1⟩ ⟨9, 2⟩ 4 (-1) 1 5 ∧
    (rocfft_transpose_outofplace_template ElemType.double2 32 32 100 130 1 2 7 3 3
        ⟨9, 0⟩ ⟨9, 1⟩ ⟨9, 2⟩ 0 1 1 5).launches =
      [⟨Kernel.transpose_kernel2_scheme ElemType.double2 32 32 (noCornerOf 100 130 32),
        gridOf 100 130 3 32, threadsOf 32 32, 0, 5,
        [KArg.buf 1, KArg.buf 2, KArg.buf 7, KArg.size 3,
         KArg.table ⟨9, 0⟩, KArg.table ⟨9, 1⟩, KArg.table ⟨9, 2⟩, KArg.int 1]⟩] ∧
    (∀ l ∈ (rocfft_transpose_outofplace_template ElemType.double2 32 32 100 130 1 2 7 3 3
        ⟨9, 0⟩ ⟨9, 1⟩ ⟨9, 2⟩ 0 1 1 5).launches,
      (noCornerOf 100 130 32 = true →
        l.kernel = Kernel.transpose_kernel2_scheme ElemType.double2 32 32 true) ∧
      (noCornerOf 100 130 32 = false →
        l.kernel = Kernel.transpose_kernel2_scheme ElemType.double2 32 32 false) ∧
      l.args.getLast? = some (KArg.int 1)) ∧
    (∀ data : DeviceCallIn, lengthOK data.node → isBlock data.node.scheme = true →
      ∃ pr c, var2Call data = some (pr, c) ∧ c.scheme ≠ 0 ∧
        (data.node.scheme = ComputeScheme.CS_KERNEL_TRANSPOSE_XY_Z → c.scheme = 1) ∧
        (data.node.scheme = ComputeScheme.CS_KERNEL_TRANSPOSE_Z_XY → c.scheme = 2))) :=
  ⟨by decide, C11_block_entry_point ElemType.double2 32 32 100 130 1 2 7 3 3
    ⟨9, 0⟩ ⟨9, 1⟩ ⟨9, 2⟩ 0 1 4 (-1) 1 5 (by decide)⟩

/-- C12: a call of the template whose variant lookup succeeds (always on the
block schemes, and on the plain scheme when the key is in the table) issues
exactly one launch, with the computed grid and block, dynamic shared memory 0,
the stream of the caller and the positional arguments
`(A, B, twiddles_large, dim, lengths, stride_in, stride_out)`, followed by
`scheme` on the block schemes only; the wrapper supplies `dim = length.size()`
and the three tables `devKernArg`, `devKernArg + 1 * KERN_ARGS_ARRAY_WIDTH` and
`devKernArg + 2 * KERN_ARGS_ARRAY_WIDTH`, in this order. -/
theorem C12_single_launch (data : DeviceCallIn) (T : ElemType)
    (X Y m n A B tw count dim : Nat) (lengths sin sout : KernArgPtr)
    (twl dir scheme : Int) (stream : Nat)
    (hsel : scheme = 0 → ∃ k, (tmap T X Y).at (twl, dir, noCornerOf m n X) = some k)
    (h : lengthOK data.node) :
    (∃ k, (rocfft_transpose_outofplace_template T X Y m n A B tw count dim
          lengths sin sout twl dir scheme stream).launches =
        [⟨k, gridOf m n count X, threadsOf X Y, 0, stream,
          [KArg.buf A, KArg.buf B, KArg.buf tw, KArg.size dim,
           KArg.table lengths, KArg.table sin, KArg.table sout] ++
            (if scheme = 0 then [] else [KArg.int scheme])⟩] ∧
      (scheme = 0 → (tmap T X Y).at (twl, dir, noCornerOf m n X) = some k) ∧
      (scheme ≠ 0 → k = Kernel.transpose_kernel2_scheme T X Y (noCornerOf m n X))) ∧
    (∃ pr c, var2Call data = some (pr, c) ∧
      c.A = data.bufIn0 ∧ c.B = data.bufOut0 ∧
      c.twiddles_large = data.node.twiddles_large ∧
      c.dim = data.node.length.length ∧
      c.lengths = ⟨data.node.devKernArg, 0⟩ ∧
      c.stride_in = ⟨data.node.devKernArg, 1⟩ ∧
      c.stride_out = ⟨data.node.devKernArg, 2⟩ ∧
      c.rocfft_stream = data.rocfft_stream) := by
  constructor
  · by_cases hs : scheme = 0
    · obtain ⟨k, hk⟩ := hsel hs
      subst hs
      have hk2 := hk
      rw [tmap_at] at hk2
      split_ifs at hk2 with hcond
      refine ⟨k, ?_, fun _ => hk, fun hne => absurd rfl hne⟩
      rw [template_plain, if_pos hcond]
      simp only [Option.some.injEq] at hk2
      rw [← hk2]
      rfl
    · refine ⟨_, ?_, fun e => absurd e hs, fun _ => rfl⟩
      rw [template_block _ _ _ _ _ _ _ _ _ _ _ _ _ _ _ _ _ hs, if_neg hs]
      rfl
  · obtain ⟨s, m1, n1, hmn, _⟩ := schemeMN_of_lengthOK data.node h
    obtain ⟨c, hc, _, _, _, _, _, _, _, hA, hB, htw, hdim, hl, hsi, hso, hst⟩ :=
      var2Call_fields data s m1 n1 hmn
    exact ⟨_, c, hc, hA, hB, htw, hdim, hl, hsi, hso, hst⟩

/-- C12, at the plain call with key `(3, -1, false)` on the double-precision
tile, and the node `nodePlainDouble`. -/
theorem C12_single_launch_witness :
    (((0 : Int) = 0 → ∃ k,
        (tmap ElemType.double2 32 32).at (3, -1, noCornerOf 100 130 32) = some k) ∧
      lengthOK dataPlainDouble.node) ∧
    ((∃ k, (rocfft_transpose_outofplace_template ElemType.double2 32 32 100 130 1 2 7 18 3
          ⟨9, 0⟩ ⟨9, 1⟩ ⟨9, 2⟩ 3 (-1) 0 5).launches =
        [⟨k, gridOf 100 130 18 32, threadsOf 32 32, 0, 5,
          [KArg.buf 1, KArg.buf 2, KArg.buf 7, KArg.size 3,
           KArg.table ⟨9, 0⟩, KArg.table ⟨9, 1⟩, KArg.table ⟨9, 2⟩] ++
            (if (0 : Int) = 0 then [] else [KArg.int 0])⟩] ∧
      ((0 : Int) = 0 →
        (tmap ElemType.double2 32 32).at (3, -1, noCornerOf 100 130 32) = some k) ∧
      ((0 : Int) ≠ 0 →
        k = Kernel.transpose_kernel2_scheme ElemType.double2 32 32 (noCornerOf 100 130 32))) ∧
    (∃ pr c, var2Call dataPlainDouble = some (pr, c) ∧
      c.A = dataPlainDouble.bufIn0 ∧ c.B = dataPlainDouble.bufOut0 ∧
      c.twiddles_large = dataPlainDouble.node.twiddles_large ∧
      c.dim = dataPlainDouble.node.length.length ∧
      c.lengths = ⟨dataPlainDouble.node.devKernArg, 0⟩ ∧
      c.stride_in = ⟨dataPlainDouble.node.devKernArg, 1⟩ ∧
      c.stride_out = ⟨dataPlainDouble.node.devKernArg, 2⟩ ∧
      c.rocfft_stream = dataPlainDouble.rocfft_stream)) :=
  ⟨⟨fun _ =>
      ⟨Kernel.transpose_kernel2 ElemType.double2 32 32 true 3 (-1) (noCornerOf 100 130 32),
       by simp [tmap_at]⟩, by decide⟩,
   C12_single_launch dataPlainDouble ElemType.double2 32 32 100 130 1 2 7 18 3
     ⟨9, 0⟩ ⟨9, 1⟩ ⟨9, 2⟩ 3 (-1) 0 5
     (fun _ =>
      ⟨Kernel.transpose_kernel2 ElemType.double2 32 32 true 3 (-1) (noCornerOf 100 130 32),
       by simp [tmap_at]⟩)
     (by decide)⟩

/-! ## Auxiliary facts: the family of variants -/

theorem plainVariants_eq (T : ElemType) (X Y : Nat) : plainVariants T X Y =
    [Kernel.transpose_kernel2 T X Y true 0 (-1) true,
     Kernel.transpose_kernel2 T X Y true 0 (-1) false,
     Kernel.transpose_kernel2 T X Y true 0 1 true,
     Kernel.transpose_kernel2 T X Y true 0 1 false,
     Kernel.transpose_kernel2 T X Y true 2 (-1) true,
     Kernel.transpose_kernel2 T X Y true 2 (-1) false,
     Kernel.transpose_kernel2 T X Y true 2 1 true,
     Kernel.transpose_kernel2 T X Y true 2 1 false,
     Kernel.transpose_kernel2 T X Y true 3 (-1) true,
     Kernel.transpose_kernel2 T X Y true 3 (-1) false,
     Kernel.transpose_kernel2 T X Y true 3 1 true,
     Kernel.transpose_kernel2 T X Y true 3 1 false,
     Kernel.transpose_kernel2 T X Y true 4 (-1) true,
     Kernel.transpose_kernel2 T X Y true 4 (-1) false,
     Kernel.transpose_kernel2 T X Y true 4 1 true,
     Kernel.transpose_kernel2 T X Y true 4 1 false] := by
  rw [plainVariants, tmap_eq]
  rfl

theorem plainVariants_nodup (T : ElemType) (X Y : Nat) : (plainVariants T X Y).Nodup := by
  rw [plainVariants_eq]
  simp

/-- Membership in the plain family: the instantiations with a stage in
`{0, 2, 3, 4}` and a direction in `{+1, -1}`. -/
theorem mem_plainVariants (T : ElemType) (X Y : Nat) (k : Kernel) :
    k ∈ plainVariants T X Y ↔
      ∃ twl dir b, ((twl = 0 ∨ twl = 2 ∨ twl = 3 ∨ twl = 4) ∧ (dir = 1 ∨ dir = -1)) ∧
        k = Kernel.transpose_kernel2 T X Y true twl dir b := by
  rw [plainVariants_eq]
  constructor
  · intro hk
    simp only [List.mem_cons, List.mem_singleton, List.not_mem_nil, or_false] at hk
    rcases hk with e | e | e | e | e | e | e | e | e | e | e | e | e | e | e | e <;>
      exact ⟨_, _, _, by decide, e⟩
  · rintro ⟨twl, dir, b, ⟨ht, hd⟩, rfl⟩
    rcases ht with rfl | rfl | rfl | rfl <;> rcases hd with rfl | rfl <;> cases b <;> simp

/-- C13 (counterexample): the table of the single-precision instantiation holds
16 pairwise distinct entry points, and the tables of the two instantiations
used by the wrapper hold 32 together; neither number is 24, and with the two
(respectively four) block entry points the family has 18 (respectively 36)
members, not 26. -/
theorem C13_family_is_not_26 :
    ((plainVariants ElemType.float2 64 16).Nodup ∧
      (plainVariants ElemType.float2 64 16).length = 16 ∧
      (plainVariants ElemType.float2 64 16).length ≠ 24 ∧
      (plainVariants ElemType.float2 64 16 ++ blockVariants ElemType.float2 64 16).length
        ≠ 26) ∧
    ((plainVariants ElemType.float2 64 16 ++ plainVariants ElemType.double2 32 32).Nodup ∧
      (plainVariants ElemType.float2 64 16 ++ plainVariants ElemType.double2 32 32).length
        = 32 ∧
      ((plainVariants ElemType.float2 64 16 ++ plainVariants ElemType.double2 32 32) ++
        (blockVariants ElemType.float2 64 16 ++ blockVariants ElemType.double2 32 32)).length
        ≠ 26) := by
  refine ⟨⟨plainVariants_nodup _ _ _, ?_, ?_, ?_⟩, ?_, ?_, ?_⟩
  · rw [plainVariants_eq]; rfl
  · rw [plainVariants_eq]; decide
  · rw [plainVariants_eq]; decide
  · rw [plainVariants_eq, plainVariants_eq]; decide
  · rw [plainVariants_eq, plainVariants_eq]; rfl
  · rw [plainVariants_eq, plainVariants_eq]; decide

/-- C13 (amended): for every instantiation the family from which the template
selects has exactly 18 members, 16 pairwise distinct entry points selectable on
the plain scheme and 2 on the block schemes (32 and 4 over the two
instantiations the wrapper uses).  Every launch uses a member of the family of
its scheme, every member is selected by some call (tile width at least 2), and
a call issues at most one launch: exactly one on the block schemes and on the
plain scheme when its key is in the table, none when the key is missing. -/
theorem C13_family_of_variants (T : ElemType) (X Y : Nat) :
    ((plainVariants T X Y).Nodup ∧ (plainVariants T X Y).length = 16) ∧
    ((blockVariants T X Y).Nodup ∧ (blockVariants T X Y).length = 2) ∧
    ((plainVariants T X Y ++ blockVariants T X Y).Nodup ∧
      (plainVariants T X Y ++ blockVariants T X Y).length = 18) ∧
    (((plainVariants ElemType.float2 64 16 ++ plainVariants ElemType.double2 32 32) ++
        (blockVariants ElemType.float2 64 16 ++ blockVariants ElemType.double2 32 32)).Nodup ∧
      (plainVariants ElemType.float2 64 16 ++ plainVariants ElemType.double2 32 32).length
        = 32 ∧
      (blockVariants ElemType.float2 64 16 ++ blockVariants ElemType.double2 32 32).length
        = 4) ∧
    (∀ (m n A B tw count dim : Nat) (lengths sin sout : KernArgPtr)
        (twl dir scheme : Int) (stream : Nat),
      let r := rocfft_transpose_outofplace_template T X Y m n A B tw count dim
        lengths sin sout twl dir scheme stream
      (∀ l ∈ r.launches,
        (scheme = 0 → l.kernel ∈ plainVariants T X Y) ∧
        (scheme ≠ 0 → l.kernel ∈ blockVariants T X Y)) ∧
      r.launches.length ≤ 1 ∧
      (scheme ≠ 0 → r.launches.length = 1) ∧
      (scheme = 0 → (tmap T X Y).at (twl, dir, noCornerOf m n X) ≠ none →
        r.launches.length = 1) ∧
      (scheme = 0 → (tmap T X Y).at (twl, dir, noCornerOf m n X) = none →
        r.launches.length = 0)) ∧
    (2 ≤ X → ∀ k ∈ plainVariants T X Y, ∃ (m n : Nat) (twl dir : Int),
      (rocfft_transpose_outofplace_template T X Y m n 0 0 0 0 0
        ⟨0, 0⟩ ⟨0, 1⟩ ⟨0, 2⟩ twl dir 0 0).launches.map (fun l => l.kernel) = [k]) ∧
    (2 ≤ X → ∀ k ∈ blockVariants T X Y, ∃ (m n : Nat),
      (rocfft_transpose_outofplace_template T X Y m n 0 0 0 0 0
        ⟨0, 0⟩ ⟨0, 1⟩ ⟨0, 2⟩ 0 1 1 0).launches.map (fun l => l.kernel) = [k]) := by
  have hT : noCornerOf 0 0 X = true := by simp [noCornerOf]
  have hF : 2 ≤ X → noCornerOf 1 1 X = false := by
    intro hX
    have h1 : 1 % X = 1 := Nat.mod_eq_of_lt hX
    simp [noCornerOf, h1]
  refine ⟨⟨plainVariants_nodup T X Y, ?_⟩, ⟨?_, rfl⟩, ⟨?_, ?_⟩, ⟨?_, ?_, rfl⟩, ?_, ?_, ?_⟩
  · rw [plainVariants_eq]; rfl
  · simp [blockVariants]
  · rw [plainVariants_eq]; simp [blockVariants]
  · rw [plainVariants_eq]; rfl
  · rw [plainVariants_eq, plainVariants_eq]; decide
  · rw [plainVariants_eq, plainVariants_eq]; rfl
  · intro m n A B tw count dim lengths sin sout twl dir scheme stream
    by_cases hs : scheme = 0
    · subst hs
      simp only [template_plain, tmap_at]
      by_cases hk : (twl = 0 ∨ twl = 2 ∨ twl = 3 ∨ twl = 4) ∧ (dir = 1 ∨ dir = -1)
      · simp only [if_pos hk]
        refine ⟨?_, by simp, by simp, by simp, by simp⟩
        intro l hl
        simp only [List.mem_singleton] at hl
        subst hl
        exact ⟨fun _ => (mem_plainVariants T X Y _).mpr ⟨twl, dir, _, hk, rfl⟩,
          fun hne => absurd rfl hne⟩
      · simp only [if_neg hk]
        simp
    · simp only [template_block _ _ _ _ _ _ _ _ _ _ _ _ _ _ _ _ _ hs]
      refine ⟨?_, by simp, by simp, fun e => absurd e hs, fun e => absurd e hs⟩
      intro l hl
      simp only [List.mem_singleton] at hl
      subst hl
      refine ⟨fun e => absurd e hs, fun _ => ?_⟩
      cases noCornerOf m n X <;> simp [blockVariants]
  · intro hX k hk
    obtain ⟨twl, dir, b, hv, rfl⟩ := (mem_plainVariants T X Y k).mp hk
    cases b
    · refine ⟨1, 1, twl, dir, ?_⟩
      rw [template_plain, if_pos hv, hF hX]
      rfl
    · refine ⟨0, 0, twl, dir, ?_⟩
      rw [template_plain, if_pos hv, hT]
      rfl
  · intro hX k hk
    simp only [blockVariants, List.mem_cons, List.mem_singleton, List.not_mem_nil,
      or_false] at hk
    rcases hk with rfl | rfl
    · refine ⟨0, 0, ?_⟩
      rw [template_block _ _ _ _ _ _ _ _ _ _ _ _ _ _ _ _ _ (by decide), hT]
      rfl
    · refine ⟨1, 1, ?_⟩
      rw [template_block _ _ _ _ _ _ _ _ _ _ _ _ _ _ _ _ _ (by decide), hF hX]
      rfl

/-- C14: for every input, keys missing from the table included, the template
returns `rocfft_status_success`; no other status value is returned. -/
theorem C14_status_always_success (T : ElemType) (X Y m n A B tw count dim : Nat)
    (lengths sin sout : KernArgPtr) (twl dir scheme : Int) (stream : Nat) :
    (rocfft_transpose_outofplace_template T X Y m n A B tw count dim
        lengths sin sout twl dir scheme stream).status =
      rocfft_status.rocfft_status_success ∧
    (rocfft_transpose_outofplace_template T X Y m n A B tw count dim
        lengths sin sout twl dir scheme stream).status ≠
      rocfft_status.rocfft_status_failure ∧
    (rocfft_transpose_outofplace_template T X Y m n A B tw count dim
        lengths sin sout twl dir scheme stream).status ≠
      rocfft_status.rocfft_status_invalid_dimensions := by
  have hst : (rocfft_transpose_outofplace_template T X Y m n A B tw count dim
      lengths sin sout twl dir scheme stream).status =
        rocfft_status.rocfft_status_success := by
    by_cases hs : scheme = 0
    · subst hs
      rw [template_plain]
      split_ifs <;> rfl
    · rw [template_block _ _ _ _ _ _ _ _ _ _ _ _ _ _ _ _ _ hs]
  refine ⟨hst, ?_, ?_⟩ <;> rw [hst] <;> decide

/-! ## Auxiliary facts: the tiled extent -/

/-- The extent times the tile width covers `n`, and equals it exactly when the
tile width divides `n`. -/
theorem extent_mul (n X : Nat) (h1 : 1 ≤ n) (hX : 0 < X) :
    n ≤ ((n - 1) / X + 1) * X ∧ (((n - 1) / X + 1) * X = n ↔ n % X = 0) := by
  have hdm : X * ((n - 1) / X) + (n - 1) % X = n - 1 := Nat.div_add_mod (n - 1) X
  have hr : (n - 1) % X < X := Nat.mod_lt _ hX
  have hn : n = X * ((n - 1) / X) + ((n - 1) % X + 1) := by omega
  have hmod : n % X = ((n - 1) % X + 1) % X := by
    conv_lhs => rw [hn]
    rw [Nat.mul_add_mod]
  have hexp : ((n - 1) / X + 1) * X = X * ((n - 1) / X) + X := by
    rw [Nat.add_mul, Nat.one_mul, Nat.mul_comm]
  rw [hexp, hmod]
  generalize (n - 1) / X = q at *
  generalize (n - 1) % X = r at *
  generalize X * q = P at *
  refine ⟨by omega, ?_⟩
  by_cases hfull : r + 1 = X
  · rw [hfull, Nat.mod_self]
    exact ⟨fun _ => rfl, fun _ => by omega⟩
  · rw [Nat.mod_eq_of_lt (by omega)]
    exact ⟨fun h => by omega, fun h => by omega⟩

/-- C15: for `m ≥ 1`, `n ≥ 1` (values of `size_t`) and a positive tile width,
`noCorner` is true exactly when the tiled extent equals the problem size,
`grid.x * TRANSPOSE_DIM_X = n` and `grid.y * TRANSPOSE_DIM_X = m`; when it is
false, `grid.x * TRANSPOSE_DIM_X > n` or `grid.y * TRANSPOSE_DIM_X > m`.  The
products are exact products of natural numbers. -/
theorem C15_noCorner_tiled_extent (m n count X : Nat)
    (hm : 1 ≤ m) (hm64 : m < 2 ^ 64) (hn : 1 ≤ n) (hn64 : n < 2 ^ 64) (hX : 0 < X) :
    (noCornerOf m n X = true ↔
      ((gridOf m n count X).x * X = n ∧ (gridOf m n count X).y * X = m)) ∧
    (noCornerOf m n X = false →
      ((gridOf m n count X).x * X > n ∨ (gridOf m n count X).y * X > m)) := by
  obtain ⟨hnle, hniff⟩ := extent_mul n X hn hX
  obtain ⟨hmle, hmiff⟩ := extent_mul m X hm hX
  have hx : (gridOf m n count X).x = (n - 1) / X + 1 := gridExtent_pos n X hn hn64
  have hy : (gridOf m n count X).y = (m - 1) / X + 1 := gridExtent_pos m X hm hm64
  rw [hx, hy]
  constructor
  · rw [noCornerOf_iff, hniff, hmiff]
  · intro hfalse
    have hnot : ¬ (n % X = 0 ∧ m % X = 0) := by
      rw [← noCornerOf_iff, hfalse]
      decide
    by_cases h0 : n % X = 0
    · right
      have hne : ((m - 1) / X + 1) * X ≠ m := fun e => hnot ⟨h0, hmiff.mp e⟩
      exact lt_of_le_of_ne hmle (Ne.symm hne)
    · left
      have hne : ((n - 1) / X + 1) * X ≠ n := fun e => h0 (hniff.mp e)
      exact lt_of_le_of_ne hnle (Ne.symm hne)

/-- C15, at the double-precision tile with `m = 100`, `n = 130`. -/
theorem C15_noCorner_tiled_extent_witness :
    (1 ≤ 100 ∧ 100 < 2 ^ 64 ∧ 1 ≤ 130 ∧ 130 < 2 ^ 64 ∧ 0 < 32) ∧
    ((noCornerOf 100 130 32 = true ↔
      ((gridOf 100 130 3 32).x * 32 = 130 ∧ (gridOf 100 130 3 32).y * 32 = 100)) ∧
    (noCornerOf 100 130 32 = false →
      ((gridOf 100 130 3 32).x * 32 > 130 ∨ (gridOf 100 130 3 32).y * 32 > 100))) :=
  ⟨⟨by decide, by decide, by decide, by decide, by decide⟩,
   C15_noCorner_tiled_extent 100 130 3 32 (by decide) (by decide) (by decide) (by decide)
     (by decide)⟩

/-- C16: when none of the products formed by the wrapper overflows, the
normalised request keeps the element count: `m * n * count` equals the batch
times the product of all entries of the length vector, as natural numbers, for
every scheme and every length vector with the entries read for that scheme. -/
theorem C16_element_count (data : DeviceCallIn) (h : lengthOK data.node)
    (hb : data.node.batch < 2 ^ 64)
    (hcount : data.node.batch *
      (data.node.length.drop (if isBlock data.node.scheme then 3 else 2)).prod < 2 ^ 64)
    (hxy : data.node.scheme = ComputeScheme.CS_KERNEL_TRANSPOSE_XY_Z →
      data.node.length.getD 0 0 * data.node.length.getD 1 0 < 2 ^ 64)
    (hzx : data.node.scheme = ComputeScheme.CS_KERNEL_TRANSPOSE_Z_XY →
      data.node.length.getD 1 0 * data.node.length.getD 2 0 < 2 ^ 64) :
    ∃ pr c, var2Call data = some (pr, c) ∧
      c.m * c.n * c.count = data.node.batch * data.node.length.prod := by
  unfold lengthOK at h
  cases hblk : isBlock data.node.scheme
  · rw [hblk] at h hcount
    match hl : data.node.length, h with
    | l0 :: l1 :: rest, _ =>
      obtain ⟨c, hc, hm, hn, _, _, _, hcnt, _⟩ :=
        var2Call_fields data 0 l1 l0 (schemeMN_plain data.node l0 l1 rest hl hblk)
      refine ⟨_, c, hc, ?_⟩
      rw [hl] at hcount hcnt
      simp only [Bool.false_eq_true, if_false, List.drop_succ_cons, List.drop_zero]
        at hcount
      simp only [ne_eq, not_true_eq_false, if_false] at hcnt
      rw [countLoop_drop, foldl_szMul _ _ hb] at hcnt
      simp only [List.drop_succ_cons, List.drop_zero] at hcnt
      rw [Nat.mod_eq_of_lt hcount] at hcnt
      rw [hm, hn, hcnt, List.prod_cons, List.prod_cons]
      ring
  · rw [hblk] at h hcount
    match hl : data.node.length, h with
    | l0 :: l1 :: l2 :: rest, _ =>
      rw [hl] at hcount hxy hzx
      simp only [if_true, List.drop_succ_cons, List.drop_zero] at hcount
      simp only [isBlock, Bool.or_eq_true, decide_eq_true_eq] at hblk
      rcases hblk with hx | hz
      · obtain ⟨c, hc, hm, hn, _, _, _, hcnt, _⟩ :=
          var2Call_fields data 1 l2 (szMul l0 l1) (schemeMN_xy_z data.node l0 l1 l2 rest hl hx)
        refine ⟨_, c, hc, ?_⟩
        have hprod : l0 * l1 < 2 ^ 64 := by simpa using hxy hx
        rw [hl] at hcnt
        simp only [ne_eq, one_ne_zero, not_false_eq_true, if_true] at hcnt
        rw [countLoop_drop, foldl_szMul _ _ hb] at hcnt
        simp only [List.drop_succ_cons, List.drop_zero] at hcnt
        rw [Nat.mod_eq_of_lt hcount] at hcnt
        rw [hm, hn, hcnt, szMul_of_lt _ _ hprod, List.prod_cons, List.prod_cons,
          List.prod_cons]
        ring
      · obtain ⟨c, hc, hm, hn, _, _, _, hcnt, _⟩ :=
          var2Call_fields data 2 (szMul l1 l2) l0 (schemeMN_z_xy data.node l0 l1 l2 rest hl hz)
        refine ⟨_, c, hc, ?_⟩
        have hprod : l1 * l2 < 2 ^ 64 := by simpa using hzx hz
        rw [hl] at hcnt
        simp only [ne_eq, OfNat.ofNat_ne_zero, not_false_eq_true, if_true] at hcnt
        rw [countLoop_drop, foldl_szMul _ _ hb] at hcnt
        simp only [List.drop_succ_cons, List.drop_zero] at hcnt
        rw [Nat.mod_eq_of_lt hcount] at hcnt
        rw [hm, hn, hcnt, szMul_of_lt _ _ hprod, List.prod_cons, List.prod_cons,
          List.prod_cons]
        ring

/-- C16, at the five-dimensional `XY_Z` node `nodeXYZ`. -/
theorem C16_element_count_witness :
    (lengthOK dataXYZ.node ∧ dataXYZ.node.batch < 2 ^ 64 ∧
      dataXYZ.node.batch *
        (dataXYZ.node.length.drop (if isBlock dataXYZ.node.scheme then 3 else 2)).prod
          < 2 ^ 64 ∧
      (dataXYZ.node.scheme = ComputeScheme.CS_KERNEL_TRANSPOSE_XY_Z →
        dataXYZ.node.length.getD 0 0 * dataXYZ.node.length.getD 1 0 < 2 ^ 64) ∧
      (dataXYZ.node.scheme = ComputeScheme.CS_KERNEL_TRANSPOSE_Z_XY →
        dataXYZ.node.length.getD 1 0 * dataXYZ.node.length.getD 2 0 < 2 ^ 64)) ∧
    ∃ pr c, var2Call dataXYZ = some (pr, c) ∧
      c.m * c.n * c.count = dataXYZ.node.batch * dataXYZ.node.length.prod :=
  ⟨⟨by decide, by decide, by decide, by decide, by decide⟩,
   C16_element_count dataXYZ (by decide) (by decide) (by decide) (by decide) (by decide)⟩

/-! ## Auxiliary facts: the extent at 0 -/

theorem szSub_zero_one : szSub 0 1 = 2 ^ 64 - 1 := by
  norm_num [szSub, SIZE_MOD]

theorem pred_mul_div (X k : Nat) (hX : 0 < X) (hk : 1 ≤ k) : (X * k - 1) / X = k - 1 := by
  obtain ⟨j, rfl⟩ : ∃ j, k = j + 1 := ⟨k - 1, by omega⟩
  have hsplit : X * (j + 1) - 1 = X * j + (X - 1) := by
    rw [Nat.mul_succ]
    omega
  rw [hsplit, Nat.mul_add_div hX, Nat.div_eq_of_lt (by omega)]
  rfl

/-- At `n = 0` the extent expression is `2^64 / X` for every tile width `X ≥ 2`
dividing `2^64`. -/
theorem gridExtent_zero (X : Nat) (hX : 2 ≤ X) (hdvd : X ∣ 2 ^ 64) :
    gridExtent 0 X = 2 ^ 64 / X := by
  obtain ⟨k, hk⟩ := hdvd
  have hkpos : 1 ≤ k := by
    rcases Nat.eq_zero_or_pos k with h0 | h0
    · rw [h0] at hk
      norm_num at hk
    · exact h0
  have hXk : 2 ^ 64 / X = k := by
    rw [hk]
    exact Nat.mul_div_cancel_left k (by omega)
  have hdiv : (2 ^ 64 - 1) / X = k - 1 := by
    rw [hk]
    exact pred_mul_div X k (by omega) hkpos
  have hklt : k < 2 ^ 64 := by
    have h2 : 2 * k ≤ X * k := Nat.mul_le_mul_right k hX
    omega
  unfold gridExtent
  rw [szSub_zero_one, hdiv, hXk]
  unfold szAdd SIZE_MOD
  rw [Nat.sub_add_cancel hkpos]
  exact Nat.mod_eq_of_lt hklt

/-- C17: with 64-bit wrap-around, at `n = 0` (or `m = 0`) the extent expression
`(n - 1) / TRANSPOSE_DIM_X + 1` is `2^64 / TRANSPOSE_DIM_X`, that is `2^58` for
tile width 64 and `2^59` for tile width 32, and not `⌈0 / TRANSPOSE_DIM_X⌉ = 0`;
the wrapper has no guard against a zero length and passes it on.  The ceiling
formula holds for every extent of at least 1. -/
theorem C17_zero_extent_wraps :
    (gridExtent 0 64 = 2 ^ 64 / 64 ∧ gridExtent 0 64 = 2 ^ 58 ∧
      gridExtent 0 32 = 2 ^ 64 / 32 ∧ gridExtent 0 32 = 2 ^ 59) ∧
    (∀ X : Nat, 2 ≤ X → X ∣ 2 ^ 64 → gridExtent 0 X = 2 ^ 64 / X) ∧
    (⌈((0 : ℕ) : ℚ) / ((64 : ℕ) : ℚ)⌉₊ = 0 ∧ ⌈((0 : ℕ) : ℚ) / ((32 : ℕ) : ℚ)⌉₊ = 0 ∧
      gridExtent 0 64 ≠ ⌈((0 : ℕ) : ℚ) / ((64 : ℕ) : ℚ)⌉₊ ∧
      gridExtent 0 32 ≠ ⌈((0 : ℕ) : ℚ) / ((32 : ℕ) : ℚ)⌉₊) ∧
    (∀ m n count : Nat,
      (gridOf m 0 count 64).x = 2 ^ 58 ∧ (gridOf 0 n count 64).y = 2 ^ 58 ∧
      (gridOf m 0 count 32).x = 2 ^ 59 ∧ (gridOf 0 n count 32).y = 2 ^ 59) ∧
    ((rocfft_internal_transpose_var2 dataZero).map
        (fun r => r.launches.map (fun l => l.grid)) = some [⟨2 ^ 58, 1, 1⟩]) ∧
    (∀ n X : Nat, 1 ≤ n → n < 2 ^ 64 → 0 < X →
      gridExtent n X = ⌈(n : ℚ) / (X : ℚ)⌉₊) := by
  have h64 : gridExtent 0 64 = 2 ^ 58 := by
    rw [gridExtent_zero 64 (by norm_num) (by norm_num)]
    norm_num
  have h32 : gridExtent 0 32 = 2 ^ 59 := by
    rw [gridExtent_zero 32 (by norm_num) (by norm_num)]
    norm_num
  refine ⟨⟨gridExtent_zero 64 (by norm_num) (by norm_num), h64,
    gridExtent_zero 32 (by norm_num) (by norm_num), h32⟩,
    gridExtent_zero, ⟨by simp, by simp, ?_, ?_⟩, ?_, ?_, ?_⟩
  · rw [h64]
    simp
  · rw [h32]
    simp
  · intro m n count
    exact ⟨h64, h64, h32, h32⟩
  · have hm : gridExtent 5 64 = 1 := by
      rw [gridExtent_pos 5 64 (by norm_num) (by norm_num)]
    simp [rocfft_internal_transpose_var2, var2Call, dataZero, nodeZero, schemeMN,
      readLength, twlLadder, countLoop_drop, TemplateCall.run, template_plain, gridOf,
      h64, hm, szMul, SIZE_MOD]
  · intro n X h1 h2 hX
    exact gridExtent_eq_ceil n X h1 h2 hX

/-! ## Auxiliary facts: reads of the length vector -/

/-- The scheme test fails on a read exactly when the vector lacks an entry it
reads. -/
theorem schemeMN_isSome_iff (node : TreeNode) :
    (schemeMN node).isSome ↔ lengthOK node := by
  constructor
  · intro hsome
    unfold lengthOK
    match hl : node.length with
    | [] => simp [schemeMN, readLength, hl] at hsome
    | [a] => simp [schemeMN, readLength, hl] at hsome
    | [a, b] =>
      cases hs : node.scheme <;>
        simp [schemeMN, readLength, hl, hs, isBlock] at hsome ⊢
    | a :: b :: c :: rest =>
      simp only [List.length_cons]
      split_ifs <;> omega
  · intro h
    obtain ⟨s, m, n, hmn, _⟩ := schemeMN_of_lengthOK node h
    rw [hmn]
    rfl

theorem var2Call_isSome_iff (data : DeviceCallIn) :
    (var2Call data).isSome ↔ lengthOK data.node := by
  rw [← schemeMN_isSome_iff]
  cases hmn : schemeMN data.node with
  | none => simp [var2Call, hmn]
  | some t =>
    obtain ⟨s, m, n⟩ := t
    obtain ⟨c, hc, _⟩ := var2Call_fields data s m n hmn
    rw [hc]
    simp

/-- The guarded loop never reads outside the vector. -/
theorem countLoopChecked_eq (l : List Nat) :
    ∀ (k i c : Nat), l.length - i = k → countLoopChecked l i c = some (countLoop l i c) := by
  intro k
  induction k with
  | zero =>
    intro i c hk
    rw [countLoopChecked, countLoop, if_neg (by omega), dif_neg (by omega)]
  | succ k ih =>
    intro i c hk
    have hlt : i < l.length := by omega
    rw [countLoopChecked, countLoop, if_pos hlt, dif_pos hlt]
    have hread : readLength l i = some (l.get ⟨i, hlt⟩) := by
      simp [readLength, List.getElem?_eq_getElem hlt]
    rw [hread]
    exact ih (i + 1) _ (by omega)

/-- C18: with reads of the length vector returning an option, the wrapper
reaches the call of the template exactly when the vector has two entries on the
plain scheme and three on `XY_Z` and `Z_XY`, so every index it reads is in
bounds then, and the batch loop never reads outside the vector; `length[1]` and
`length[0]` are read before the scheme is examined, so a vector with fewer than
two entries ends in the out-of-bounds branch under every scheme. -/
theorem C18_reads_in_bounds (data : DeviceCallIn) :
    ((var2Call data).isSome ↔ lengthOK data.node) ∧
    ((rocfft_internal_transpose_var2 data).isSome ↔ lengthOK data.node) ∧
    (∀ i count : Nat,
      countLoopChecked data.node.length i count =
        some (countLoop data.node.length i count)) ∧
    (data.node.length.length < 2 →
      schemeMN data.node = none ∧ var2Call data = none ∧
        rocfft_internal_transpose_var2 data = none) := by
  have hwrap : (rocfft_internal_transpose_var2 data).isSome = (var2Call data).isSome := by
    unfold rocfft_internal_transpose_var2
    cases var2Call data with
    | none => rfl
    | some t => rfl
  refine ⟨var2Call_isSome_iff data, ?_, ?_, ?_⟩
  · rw [hwrap]
    exact var2Call_isSome_iff data
  · intro i count
    exact countLoopChecked_eq data.node.length _ i count rfl
  · intro hshort
    have hnot : ¬ lengthOK data.node := by
      unfold lengthOK
      split_ifs <;> omega
    have h1 : schemeMN data.node = none := by
      have := (schemeMN_isSome_iff data.node).not.mpr hnot
      simpa using this
    have h2 : var2Call data = none := by
      have := (var2Call_isSome_iff data).not.mpr hnot
      simpa using this
    refine ⟨h1, h2, ?_⟩
    unfold rocfft_internal_transpose_var2
    rw [h2]
    rfl

end RocFFT
